import Mathlib

/-!
Verification of the bulk-sheet-editor workbook generator.

Shallow embedding of the Rust sources under `src/ui_step_modules/`
(`bulk_create.rs`, `shared_state.rs`, `worksheet_generation.rs`).

Modelling conventions:
* Text (`String`, `&str`, raw XML bytes) is represented as `List Nat` of
  character codes.  All characters manipulated by the embedded code are
  ASCII, for which code points and UTF-8 bytes coincide.  `strCodes`
  converts a Lean string literal to this representation.
* Rust `u32` arithmetic is `Nat` with an explicit `% 4294967296` at every
  operation that can overflow (release-mode wrapping semantics).
  `usize` loop indices are plain `Nat`.
* The quick-xml layer is embedded at event granularity: an `XmlEvent`
  carries the parsed name / attribute list that the Rust loop inspects,
  plus `raw`, the exact byte serialization the writer emits when the
  event is passed through unmodified (quick-xml round-trips unmodified
  events byte-identically).  XML parse failure of a part is represented
  by an `Except`-valued event stream handed to the functions that parse
  that part.
* File I/O: the destination file is modelled as `Option (List ZipEntry)`
  (`none` = never created); `File::create` succeeds whenever reached.
-/

namespace BulkSheet

/-- The `u32` modulus. -/
def U32 : Nat := 4294967296

/-- `str.chars()` of a Lean string literal, as character codes. -/
def strCodes (s : String) : List Nat := s.data.map Char.toNat

/-- `char::is_ascii_alphabetic`. -/
def isAsciiAlpha (c : Nat) : Bool := (65 ≤ c && c ≤ 90) || (97 ≤ c && c ≤ 122)

/-- `char::is_ascii_digit`. -/
def isAsciiDigit (c : Nat) : Bool := 48 ≤ c && c ≤ 57

/-- `char::to_ascii_uppercase`. -/
def toUpperCode (c : Nat) : Nat := if 97 ≤ c && c ≤ 122 then c - 32 else c

/-- `char::is_whitespace` (the Unicode White_Space code points). -/
def isWhitespaceCode (c : Nat) : Bool :=
  c ∈ [9, 10, 11, 12, 13, 32, 133, 160, 5760, 8192, 8193, 8194, 8195, 8196,
       8197, 8198, 8199, 8200, 8201, 8202, 8232, 8233, 8239, 8287, 12288]

/-- `str::trim`: drop leading and trailing whitespace characters. -/
def trimCodes (l : List Nat) : List Nat :=
  ((l.dropWhile isWhitespaceCode).reverse.dropWhile isWhitespaceCode).reverse

/-- Decimal digits of a positive number, most significant first, with a
fuel argument making the recursion structural (any fuel `≥ n` computes the
digits of `n`). -/
def natDecimalAuxF : Nat → Nat → List Nat
  | _, 0 => []
  | 0, _ + 1 => []
  | f + 1, n + 1 => natDecimalAuxF f ((n + 1) / 10) ++ [48 + (n + 1) % 10]

/-- Decimal digits of a positive number, most significant first
(`format!("{}", n)` for `n > 0`). -/
def natDecimalAux (n : Nat) : List Nat := natDecimalAuxF n n

/-- `format!("{}", n)`: canonical decimal rendering of an unsigned integer. -/
def natDecimal (n : Nat) : List Nat := if n = 0 then [48] else natDecimalAux n

/-- Numeric value of a digit-character list (the accumulator of
`u32::from_str`). -/
def digitsVal (l : List Nat) : Nat := l.foldl (fun a c => a * 10 + (c - 48)) 0

/-- A non-empty ASCII digit run whose value fits in 32 bits. -/
def parseU32Digits (d : List Nat) : Option Nat :=
  if d = [] then none
  else if d.all isAsciiDigit then
    if digitsVal d < U32 then some (digitsVal d) else none
  else none

/-- `str::parse::<u32>()`: an optional leading `+`, then a non-empty ASCII
digit run whose value fits in 32 bits. -/
def parseU32 (l : List Nat) : Option Nat :=
  if l.head? = some 43 then parseU32Digits l.tail else parseU32Digits l

-- ---------------------------------------------------------------------------
-- Cell Reference Codec (shared_state.rs lines 73-105)
-- ---------------------------------------------------------------------------

/-- The character loop of `parse_cell_reference` (shared_state.rs 80-88):
accumulates the base-26 column value (u32, wrapping) from letters and the
digit run from digits, failing on any other character. -/
def pcrLoop : List Nat → Nat → List Nat → Option (Nat × List Nat)
  | [], col, rowPart => some (col, rowPart)
  | c :: rest, col, rowPart =>
    if isAsciiAlpha c then
      pcrLoop rest ((col * 26 + (toUpperCode c - 65 + 1)) % U32) rowPart
    else if isAsciiDigit c then
      pcrLoop rest col (rowPart ++ [c])
    else none

/-- `parse_cell_reference` (shared_state.rs 73-94): decode an `A1`-style
reference to a zero-based `(row, column)` pair. -/
def parse_cell_reference (cell : List Nat) : Option (Nat × Nat) :=
  if cell = [] then none
  else
    match pcrLoop cell 0 [] with
    | none => none
    | some (colIndex, rowPart) =>
      if colIndex = 0 ∨ rowPart = [] then none
      else
        match parseU32 rowPart with
        | none => none
        | some rowNum => some (rowNum - 1, colIndex - 1)

/-- The letter loop of `column_label_from_index` (shared_state.rs 99-103),
written with the least-significant letter appended on the right (the Rust
loop inserts it at the front), with a structural fuel argument (any fuel
`≥ n` computes the label of `n`). -/
def columnLabelAuxF : Nat → Nat → List Nat
  | _, 0 => []
  | 0, _ + 1 => []
  | f + 1, n + 1 => columnLabelAuxF f (n / 26) ++ [65 + n % 26]

/-- The letter loop of `column_label_from_index`, fuel instantiated. -/
def columnLabelAux (n : Nat) : List Nat := columnLabelAuxF n n

/-- `column_label_from_index` (shared_state.rs 96-105): bijective base-26
letter label of a zero-based column index (`idx = index + 1` is a wrapping
u32 increment). -/
def column_label_from_index (index : Nat) : List Nat :=
  columnLabelAux ((index + 1) % U32)

/-- The `A1`-style text built for a decoded mapping destination
(bulk_create.rs 104): `format!("{}{}", column_label_from_index(col), row + 1)`
with `row + 1` a wrapping u32 increment. -/
def encode_cell (row col : Nat) : List Nat :=
  column_label_from_index col ++ natDecimal ((row + 1) % U32)

/-- Any two sufficient fuels compute the same label. -/
theorem columnLabelAuxF_congr :
    ∀ n f g, n ≤ f → n ≤ g → columnLabelAuxF f n = columnLabelAuxF g n := by
  intro n
  induction n using Nat.strong_induction_on with
  | _ n ih =>
    intro f g hf hg
    match n, f, g with
    | 0, f, g => cases f <;> cases g <;> rfl
    | n + 1, f + 1, g + 1 =>
      simp only [columnLabelAuxF]
      have hlt : n / 26 < n + 1 := Nat.lt_succ_of_le (Nat.div_le_self n 26)
      have h1 : n / 26 ≤ f := le_trans (Nat.div_le_self n 26) (Nat.le_of_succ_le_succ hf)
      have h2 : n / 26 ≤ g := le_trans (Nat.div_le_self n 26) (Nat.le_of_succ_le_succ hg)
      rw [ih (n / 26) hlt f (n / 26) h1 le_rfl, ih (n / 26) hlt g (n / 26) h2 le_rfl]

theorem columnLabelAux_succ (n : Nat) :
    columnLabelAux (n + 1) = columnLabelAux (n / 26) ++ [65 + n % 26] := by
  show columnLabelAuxF (n + 1) (n + 1) = _
  simp only [columnLabelAuxF, columnLabelAux]
  rw [columnLabelAuxF_congr (n / 26) n (n / 26)
        (le_trans (Nat.div_le_self n 26) (Nat.le_of_lt_succ (Nat.lt_succ_self n))) le_rfl]

/-- Any two sufficient fuels compute the same decimal digits. -/
theorem natDecimalAuxF_congr :
    ∀ n f g, n ≤ f → n ≤ g → natDecimalAuxF f n = natDecimalAuxF g n := by
  intro n
  induction n using Nat.strong_induction_on with
  | _ n ih =>
    intro f g hf hg
    match n, f, g with
    | 0, f, g => cases f <;> cases g <;> rfl
    | n + 1, f + 1, g + 1 =>
      simp only [natDecimalAuxF]
      have hlt : (n + 1) / 10 < n + 1 := Nat.div_lt_self (Nat.succ_pos n) (by omega)
      have hle : (n + 1) / 10 ≤ n := Nat.le_of_lt_succ hlt
      rw [ih ((n + 1) / 10) hlt f ((n + 1) / 10)
            (le_trans hle (Nat.le_of_succ_le_succ hf)) le_rfl,
          ih ((n + 1) / 10) hlt g ((n + 1) / 10)
            (le_trans hle (Nat.le_of_succ_le_succ hg)) le_rfl]

theorem natDecimalAux_succ (n : Nat) :
    natDecimalAux (n + 1) = natDecimalAux ((n + 1) / 10) ++ [48 + (n + 1) % 10] := by
  show natDecimalAuxF (n + 1) (n + 1) = _
  simp only [natDecimalAuxF, natDecimalAux]
  rw [natDecimalAuxF_congr ((n + 1) / 10) n ((n + 1) / 10)
        (Nat.le_of_lt_succ (Nat.div_lt_self (Nat.succ_pos n) (by omega))) le_rfl]

example : parse_cell_reference (strCodes "A1") = some (0, 0) := by decide
example : parse_cell_reference (strCodes "") = none := by decide
example : parse_cell_reference (strCodes "1A") = some (0, 0) := by decide
example : parse_cell_reference (strCodes "A0") = some (0, 0) := by decide
example : parse_cell_reference (strCodes "AB5") = some (4, 27) := by decide
example : column_label_from_index 27 = strCodes "AB" := by decide
example : encode_cell 4 27 = strCodes "AB5" := by decide
example : parse_cell_reference (encode_cell 4 27) = some (4, 27) := by decide

-- ---------------------------------------------------------------------------
-- Codec lemmas
-- ---------------------------------------------------------------------------

theorem pcrLoop_append (l1 l2 : List Nat) (col : Nat) (rp : List Nat) :
    pcrLoop (l1 ++ l2) col rp =
      match pcrLoop l1 col rp with
      | none => none
      | some (c, r) => pcrLoop l2 c r := by
  induction l1 generalizing col rp with
  | nil => simp [pcrLoop]
  | cons c rest ih =>
    simp only [List.cons_append, pcrLoop]
    by_cases ha : isAsciiAlpha c
    · simp [ha, ih]
    · by_cases hd : isAsciiDigit c
      · simp [ha, hd, ih]
      · simp [ha, hd]

theorem digit_not_alpha {c : Nat} (h : isAsciiDigit c = true) : isAsciiAlpha c = false := by
  rw [Bool.eq_false_iff]
  intro hA
  simp only [isAsciiAlpha, Bool.or_eq_true, Bool.and_eq_true, decide_eq_true_eq] at hA
  simp only [isAsciiDigit, Bool.and_eq_true, decide_eq_true_eq] at h
  omega

theorem columnLabelAux_mem (n : Nat) : ∀ c ∈ columnLabelAux n, 65 ≤ c ∧ c ≤ 90 := by
  induction n using Nat.strong_induction_on with
  | _ n ih =>
    match n with
    | 0 => intro c hc; simp [columnLabelAux, columnLabelAuxF] at hc
    | n + 1 =>
      intro c hc
      rw [columnLabelAux_succ] at hc
      rcases List.mem_append.mp hc with h | h
      · exact ih (n / 26) (Nat.lt_succ_of_le (Nat.div_le_self n 26)) c h
      · have : c = 65 + n % 26 := List.mem_singleton.mp h
        have := Nat.mod_lt n (show 0 < 26 by omega)
        omega

/-- Consuming the bijective base-26 label of `n < 2^32` from column
accumulator `0` yields exactly `n`, leaving the digit run untouched. -/
theorem pcrLoop_label (n : Nat) (hn : n < U32) (rp : List Nat) :
    pcrLoop (columnLabelAux n) 0 rp = some (n, rp) := by
  induction n using Nat.strong_induction_on generalizing rp with
  | _ n ih =>
    match n with
    | 0 => simp [columnLabelAux, columnLabelAuxF, pcrLoop]
    | n + 1 =>
      rw [columnLabelAux_succ, pcrLoop_append]
      have hdiv : n / 26 < n + 1 := Nat.lt_succ_of_le (Nat.div_le_self n 26)
      rw [ih (n / 26) hdiv (lt_trans hdiv hn) rp]
      have hmod : n % 26 < 26 := Nat.mod_lt n (by omega)
      have halpha : isAsciiAlpha (65 + n % 26) = true := by
        simp only [isAsciiAlpha, Bool.or_eq_true, Bool.and_eq_true, decide_eq_true_eq]
        omega
      have hupper : toUpperCode (65 + n % 26) = 65 + n % 26 := by
        simp only [toUpperCode, Bool.and_eq_true, decide_eq_true_eq]
        rw [if_neg]; omega
      simp only [pcrLoop, halpha, if_true, hupper]
      have hval : n / 26 * 26 + (65 + n % 26 - 65 + 1) = n + 1 := by
        have := Nat.div_add_mod n 26
        omega
      rw [hval, Nat.mod_eq_of_lt hn]

/-- Consuming a digit run appends it to the row part and leaves the column
accumulator untouched. -/
theorem pcrLoop_digits (l : List Nat) (hl : ∀ c ∈ l, isAsciiDigit c = true) :
    ∀ col rp, pcrLoop l col rp = some (col, rp ++ l) := by
  induction l with
  | nil => intro col rp; simp [pcrLoop]
  | cons c rest ih =>
    intro col rp
    have hd : isAsciiDigit c = true := hl c (List.mem_cons_self c rest)
    have ha : isAsciiAlpha c = false := digit_not_alpha hd
    simp only [pcrLoop, ha, Bool.false_eq_true, if_false, hd, if_true]
    rw [ih (fun x hx => hl x (List.mem_cons_of_mem c hx))]
    simp

theorem natDecimalAux_mem (n : Nat) : ∀ c ∈ natDecimalAux n, isAsciiDigit c = true := by
  induction n using Nat.strong_induction_on with
  | _ n ih =>
    match n with
    | 0 => intro c hc; simp [natDecimalAux, natDecimalAuxF] at hc
    | n + 1 =>
      intro c hc
      rw [natDecimalAux_succ] at hc
      rcases List.mem_append.mp hc with h | h
      · exact ih ((n + 1) / 10) (Nat.div_lt_self (Nat.succ_pos n) (by omega)) c h
      · have : c = 48 + (n + 1) % 10 := List.mem_singleton.mp h
        have := Nat.mod_lt (n + 1) (show 0 < 10 by omega)
        simp only [isAsciiDigit, Bool.and_eq_true, decide_eq_true_eq]
        omega

theorem natDecimal_mem (n : Nat) : ∀ c ∈ natDecimal n, isAsciiDigit c = true := by
  unfold natDecimal
  split
  · intro c hc
    have : c = 48 := List.mem_singleton.mp hc
    simp [this, isAsciiDigit]
  · exact natDecimalAux_mem n

theorem digitsVal_append_one (l : List Nat) (c : Nat) :
    digitsVal (l ++ [c]) = digitsVal l * 10 + (c - 48) := by
  simp [digitsVal, List.foldl_append]

theorem digitsVal_natDecimalAux (n : Nat) : digitsVal (natDecimalAux n) = n := by
  induction n using Nat.strong_induction_on with
  | _ n ih =>
    match n with
    | 0 => simp [natDecimalAux, natDecimalAuxF, digitsVal]
    | n + 1 =>
      rw [natDecimalAux_succ, digitsVal_append_one,
          ih ((n + 1) / 10) (Nat.div_lt_self (Nat.succ_pos n) (by omega))]
      have := Nat.div_add_mod (n + 1) 10
      omega

theorem digitsVal_natDecimal (n : Nat) : digitsVal (natDecimal n) = n := by
  unfold natDecimal
  split
  · simp [digitsVal]; omega
  · exact digitsVal_natDecimalAux n

theorem natDecimalAux_ne_nil (n : Nat) (hn : 0 < n) : natDecimalAux n ≠ [] := by
  match n with
  | m + 1 => rw [natDecimalAux_succ]; simp

theorem natDecimal_ne_nil (n : Nat) : natDecimal n ≠ [] := by
  unfold natDecimal
  split
  · simp
  · exact natDecimalAux_ne_nil n (by omega)

theorem parseU32_natDecimal (n : Nat) (hn : n < U32) :
    parseU32 (natDecimal n) = some n := by
  have hmem := natDecimal_mem n
  have hne := natDecimal_ne_nil n
  have hhead : (natDecimal n).head? ≠ some 43 := by
    cases h : natDecimal n with
    | nil => exact absurd h hne
    | cons c rest =>
      have : isAsciiDigit c = true := hmem c (h ▸ List.mem_cons_self c rest)
      simp only [isAsciiDigit, Bool.and_eq_true, decide_eq_true_eq] at this
      simp only [List.head?]
      intro hcon
      have : c = 43 := by injection hcon
      omega
  unfold parseU32
  rw [if_neg (by simpa using hhead)]
  unfold parseU32Digits
  rw [if_neg hne, if_pos (List.all_eq_true.mpr hmem), digitsVal_natDecimal,
      if_pos hn]

/-- A character that is neither an ASCII letter nor an ASCII digit makes
the scanning loop fail. -/
theorem pcrLoop_badChar (l : List Nat) (c : Nat) (hc : c ∈ l)
    (ha : isAsciiAlpha c = false) (hd : isAsciiDigit c = false) :
    ∀ col rp, pcrLoop l col rp = none := by
  induction l with
  | nil => cases hc
  | cons x rest ih =>
    intro col rp
    rcases List.mem_cons.mp hc with h | h
    · subst h
      simp [pcrLoop, ha, hd]
    · by_cases hxa : isAsciiAlpha x
      · simp only [pcrLoop, hxa, if_true]
        exact ih h _ _
      · by_cases hxd : isAsciiDigit x
        · simp only [pcrLoop, hxa, Bool.false_eq_true, if_false, hxd, if_true]
          exact ih h _ _
        · simp [pcrLoop, hxa, hxd]

/-- Without letters the column accumulator never changes. -/
theorem pcrLoop_noAlpha (l : List Nat) (hl : ∀ c ∈ l, isAsciiAlpha c = false) :
    ∀ col rp res, pcrLoop l col rp = some res → res.1 = col := by
  induction l with
  | nil =>
    intro col rp res h
    simp [pcrLoop] at h
    simp [← h]
  | cons x rest ih =>
    intro col rp res h
    have hxa : isAsciiAlpha x = false := hl x (List.mem_cons_self x rest)
    by_cases hxd : isAsciiDigit x
    · simp only [pcrLoop, hxa, Bool.false_eq_true, if_false, hxd, if_true] at h
      exact ih (fun c hc => hl c (List.mem_cons_of_mem x hc)) _ _ _ h
    · simp [pcrLoop, hxa, hxd] at h

/-- Without digits the row part never changes. -/
theorem pcrLoop_noDigit (l : List Nat) (hl : ∀ c ∈ l, isAsciiDigit c = false) :
    ∀ col rp res, pcrLoop l col rp = some res → res.2 = rp := by
  induction l with
  | nil =>
    intro col rp res h
    simp [pcrLoop] at h
    simp [← h]
  | cons x rest ih =>
    intro col rp res h
    have hxd : isAsciiDigit x = false := hl x (List.mem_cons_self x rest)
    by_cases hxa : isAsciiAlpha x
    · simp only [pcrLoop, hxa, if_true] at h
      exact ih (fun c hc => hl c (List.mem_cons_of_mem x hc)) _ _ _ h
    · simp [pcrLoop, hxa, hxd] at h

-- ---------------------------------------------------------------------------
-- C6 / C7
-- ---------------------------------------------------------------------------

/-- C6 counterexample: the claim says `decode("1A") = None` and that a digit
run parsing to zero yields `None`, but `parse_cell_reference` accepts both
`"1A"` and `"A0"`, returning `Some((0,0))` for each. -/
theorem c6_counterexample :
    parse_cell_reference (strCodes "1A") = some (0, 0)
    ∧ parse_cell_reference (strCodes "1A") ≠ none
    ∧ parse_cell_reference (strCodes "A0") = some (0, 0)
    ∧ parse_cell_reference (strCodes "A0") ≠ none := by
  refine ⟨by decide, by decide, by decide, by decide⟩

/-- C6 (amended): the decoder returns `None` when the text is empty,
contains a character that is neither an ASCII letter nor an ASCII digit,
has no letter, or has no digit; letters and digits may be interleaved
(`"1A"` decodes like `"A1"`) and a zero digit run saturates to row `0`
instead of failing; `decode("A1") = Some((0,0))` and `decode("") = None`. -/
theorem c6_decoder_failure :
    parse_cell_reference (strCodes "A1") = some (0, 0)
    ∧ parse_cell_reference (strCodes "") = none
    ∧ (∀ l c, c ∈ l → isAsciiAlpha c = false → isAsciiDigit c = false →
        parse_cell_reference l = none)
    ∧ (∀ l, (∀ c ∈ l, isAsciiAlpha c = false) → parse_cell_reference l = none)
    ∧ (∀ l, (∀ c ∈ l, isAsciiDigit c = false) → parse_cell_reference l = none)
    ∧ parse_cell_reference (strCodes "1A") = some (0, 0)
    ∧ parse_cell_reference (strCodes "A0") = some (0, 0) := by
  refine ⟨by decide, by decide, ?_, ?_, ?_, by decide, by decide⟩
  · intro l c hc ha hd
    unfold parse_cell_reference
    split
    · rfl
    · rw [pcrLoop_badChar l c hc ha hd]
  · intro l hl
    unfold parse_cell_reference
    split
    · rfl
    · cases h : pcrLoop l 0 [] with
      | none => rfl
      | some res =>
        obtain ⟨colIndex, rowPart⟩ := res
        have : colIndex = 0 := pcrLoop_noAlpha l hl 0 [] _ h
        dsimp only
        rw [if_pos (Or.inl this)]
  · intro l hl
    unfold parse_cell_reference
    split
    · rfl
    · cases h : pcrLoop l 0 [] with
      | none => rfl
      | some res =>
        obtain ⟨colIndex, rowPart⟩ := res
        have : rowPart = [] := pcrLoop_noDigit l hl 0 [] _ h
        dsimp only
        rw [if_pos (Or.inr this)]

/-- C6 witness: the amended failure conditions applied at concrete inputs
(`"A*1"` has a non-alphanumeric character, `"123"` has no letter,
`"ABC"` has no digit). -/
theorem c6_witness :
    parse_cell_reference (strCodes "A*1") = none
    ∧ parse_cell_reference (strCodes "123") = none
    ∧ parse_cell_reference (strCodes "ABC") = none := by
  refine ⟨?_, ?_, ?_⟩
  · exact c6_decoder_failure.2.2.1 (strCodes "A*1") 42 (by decide) (by decide) (by decide)
  · exact c6_decoder_failure.2.2.2.1 (strCodes "123") (by decide)
  · exact c6_decoder_failure.2.2.2.2.1 (strCodes "ABC") (by decide)

/-- C7 counterexample: at the representable boundary the u32 increments in
`column_label_from_index` / the row rendering wrap, so the round trip fails:
`encode((0, 2^32 - 1)) = "1"`, which decodes to `None`, and
`encode((2^32 - 1, 0)) = "A0"`, which decodes to `Some((0, 0))`. -/
theorem c7_counterexample :
    parse_cell_reference (encode_cell 0 (U32 - 1)) = none
    ∧ parse_cell_reference (encode_cell (U32 - 1) 0) = some (0, 0)
    ∧ some ((0 : Nat), (0 : Nat)) ≠ some (U32 - 1, 0) := by
  refine ⟨by decide, by decide, by decide⟩

/-- C7 (amended): for every address whose row and column successors fit in
32 bits, decoding the encoded textual form returns the original address, and
the column label consists solely of upper-case ASCII letters. -/
theorem c7_roundtrip (row col : Nat) (h1 : row + 1 < U32) (h2 : col + 1 < U32) :
    parse_cell_reference (encode_cell row col) = some (row, col)
    ∧ ∀ c ∈ column_label_from_index col, 65 ≤ c ∧ c ≤ 90 := by
  have hcolmod : (col + 1) % U32 = col + 1 := Nat.mod_eq_of_lt h2
  have hrowmod : (row + 1) % U32 = row + 1 := Nat.mod_eq_of_lt h1
  constructor
  · unfold encode_cell column_label_from_index
    rw [hcolmod, hrowmod]
    have hne : columnLabelAux (col + 1) ++ natDecimal (row + 1) ≠ [] := by
      intro h
      exact natDecimal_ne_nil (row + 1) (List.append_eq_nil.mp h).2
    unfold parse_cell_reference
    rw [if_neg hne, pcrLoop_append, pcrLoop_label (col + 1) h2 []]
    dsimp only
    rw [pcrLoop_digits (natDecimal (row + 1)) (natDecimal_mem (row + 1))]
    dsimp only
    rw [if_neg (by
      push_neg
      exact ⟨Nat.succ_ne_zero col, by simpa using natDecimal_ne_nil (row + 1)⟩)]
    rw [List.nil_append, parseU32_natDecimal (row + 1) h1]
    simp
  · unfold column_label_from_index
    rw [hcolmod]
    exact columnLabelAux_mem (col + 1)

/-- C7 witness: the amended round trip at the concrete address
`(row, col) = (4, 27)`, whose encoding is `"AB5"`. -/
theorem c7_witness :
    parse_cell_reference (encode_cell 4 27) = some (4, 27)
    ∧ ∀ c ∈ column_label_from_index 27, 65 ≤ c ∧ c ≤ 90 :=
  c7_roundtrip 4 27 (by decide) (by decide)

-- ---------------------------------------------------------------------------
-- Streaming Cell Patcher (bulk_create.rs 257-427, 751-758)
-- ---------------------------------------------------------------------------

/-- `str::replace` with a single-character pattern. -/
def replaceChar : List Nat → Nat → List Nat → List Nat
  | [], _, _ => []
  | x :: rest, c, sub => (if x = c then sub else [x]) ++ replaceChar rest c sub

/-- `xml_escape` (bulk_create.rs 751-758): sequentially escape
`& < > " '`. -/
def xml_escape (value : List Nat) : List Nat :=
  replaceChar
    (replaceChar
      (replaceChar
        (replaceChar
          (replaceChar value 38 (strCodes "&amp;"))
          60 (strCodes "&lt;"))
        62 (strCodes "&gt;"))
      34 (strCodes "&quot;"))
    39 (strCodes "&apos;")

/-- One quick-xml event of the template sheet body.  `raw` is the exact
byte serialization the writer emits when the event passes through
unmodified (quick-xml round-trips unmodified events byte-identically);
`name`/`attrs` are the parsed pieces the Rust loop inspects. -/
inductive XmlEvent where
  | start (name : List Nat) (attrs : List (List Nat × List Nat)) (raw : List Nat)
  | empty (name : List Nat) (attrs : List (List Nat × List Nat)) (raw : List Nat)
  | endTag (name : List Nat) (raw : List Nat)
  | text (raw : List Nat)
  | comment (raw : List Nat)
  | cdata (raw : List Nat)
  | decl (raw : List Nat)
  | pi (raw : List Nat)
  | docType (raw : List Nat)
deriving DecidableEq

/-- The byte serialization of an unmodified event. -/
def XmlEvent.rawBytes : XmlEvent → List Nat
  | .start _ _ r => r
  | .empty _ _ r => r
  | .endTag _ r => r
  | .text r => r
  | .comment r => r
  | .cdata r => r
  | .decl r => r
  | .pi r => r
  | .docType r => r

/-- `attribute_value` (bulk_create.rs 406-413): the first attribute with
the given key. -/
def attrValue : List (List Nat × List Nat) → List Nat → Option (List Nat)
  | [], _ => none
  | (k, v) :: rest, key => if k = key then some v else attrValue rest key

/-- `BTreeMap::get`: look up a key in the replacement map. -/
def lookupRepl : List (List Nat × List Nat) → List Nat → Option (List Nat)
  | [], _ => none
  | (k, v) :: rest, key => if k = key then some v else lookupRepl rest key

/-- `BTreeMap::insert`: overwrite the value of an existing key, otherwise
add the binding. -/
def insertRepl : List (List Nat × List Nat) → List Nat → List Nat → List (List Nat × List Nat)
  | [], key, v => [(key, v)]
  | (k, w) :: rest, key, v =>
    if k = key then (k, v) :: rest else (k, w) :: insertRepl rest key v

/-- The guard of the replacement branch (bulk_create.rs 283-285 / 302-304):
the node is named `c`, its `r` attribute exists, and that address is in the
replacement map; returns the address together with the replacement value. -/
def replacedLookup (repl : List (List Nat × List Nat)) (name : List Nat)
    (attrs : List (List Nat × List Nat)) : Option (List Nat × List Nat) :=
  if name = strCodes "c" then
    match attrValue attrs (strCodes "r") with
    | some ref =>
      match lookupRepl repl ref with
      | some v => some (ref, v)
      | none => none
    | none => none
  else none

/-- `write_replaced_cell` (bulk_create.rs 384-404): the canonical
inline-string cell node — the address attribute, every original attribute
except `r` and `t`, the fixed `t="inlineStr"`, and a single escaped text
child. -/
def write_replaced_cell (reference value : List Nat)
    (attrs : List (List Nat × List Nat)) : List Nat :=
  strCodes "<c r=\"" ++ reference ++ strCodes "\"" ++
  attrs.foldl (fun acc kv =>
    if kv.1 = strCodes "r" ∨ kv.1 = strCodes "t" then acc
    else acc ++ strCodes " " ++ kv.1 ++ strCodes "=\"" ++ kv.2 ++ strCodes "\"") [] ++
  strCodes " t=\"inlineStr\"><is><t>" ++ xml_escape value ++ strCodes "</t></is></c>"

/-- The bytes one event contributes to the output of the
`update_sheet_xml` loop (bulk_create.rs 271-379), given the current skip
depth: suppressed events contribute nothing, a matched cell-opening node
contributes the replacement node, everything else its own serialization. -/
def emitEvent (repl : List (List Nat × List Nat)) (skip : Nat) : XmlEvent → List Nat
  | .start name attrs raw =>
    if skip > 0 then []
    else
      match replacedLookup repl name attrs with
      | some rv => write_replaced_cell rv.1 rv.2 attrs
      | none => raw
  | .empty name attrs raw =>
    if skip > 0 then []
    else
      match replacedLookup repl name attrs with
      | some rv => write_replaced_cell rv.1 rv.2 attrs
      | none => raw
  | .endTag _ raw => if skip > 0 then [] else raw
  | .text raw => if skip > 0 then [] else raw
  | .comment raw => if skip > 0 then [] else raw
  | .cdata raw => if skip > 0 then [] else raw
  | .decl raw => if skip > 0 then [] else raw
  | .pi raw => if skip > 0 then [] else raw
  | .docType raw => if skip > 0 then [] else raw

/-- The skip-depth transition of one event in the `update_sheet_xml` loop:
a matched cell-opening `Start` begins suppression at depth 1, nested
`Start`s deepen it, `End` nodes shallow it, the matching `</c>` at depth 1
ends it. -/
def stepSkip (repl : List (List Nat × List Nat)) (skip : Nat) : XmlEvent → Nat
  | .start name attrs _ =>
    if skip > 0 then skip + 1
    else
      match replacedLookup repl name attrs with
      | some _ => 1
      | none => 0
  | .empty _ _ _ => skip
  | .endTag name _ =>
    if skip > 0 then
      if skip = 1 ∧ name = strCodes "c" then 0
      else if skip > 1 then skip - 1
      else skip
    else skip
  | .text _ => skip
  | .comment _ => skip
  | .cdata _ => skip
  | .decl _ => skip
  | .pi _ => skip
  | .docType _ => skip

/-- The event loop of `update_sheet_xml` (bulk_create.rs 271-379): emit
each event's contribution while threading the skip depth. -/
def processEvents (repl : List (List Nat × List Nat)) :
    List XmlEvent → Nat → List Nat
  | [], _ => []
  | e :: rest, skip =>
    emitEvent repl skip e ++ processEvents repl rest (stepSkip repl skip e)

/-- The skip depth after consuming a list of events. -/
def skipAfter (repl : List (List Nat × List Nat)) (l : List XmlEvent)
    (skip : Nat) : Nat :=
  l.foldl (stepSkip repl) skip

/-- `update_sheet_xml` (bulk_create.rs 257-382).  `events` is the parse of
`template` into quick-xml events (`.error` when the bytes are not
well-formed XML); with an empty replacement map the template bytes are
returned before the event stream is ever consulted. -/
def update_sheet_xml (template : List Nat) (events : Except String (List XmlEvent))
    (replacements : List (List Nat × List Nat)) : Except String (List Nat) :=
  if replacements = [] then .ok template
  else
    match events with
    | .error e => .error e
    | .ok evs => .ok (processEvents replacements evs 0)

theorem skipAfter_nil (repl : List (List Nat × List Nat)) (s : Nat) :
    skipAfter repl [] s = s := rfl

theorem skipAfter_cons (repl : List (List Nat × List Nat)) (e : XmlEvent)
    (l : List XmlEvent) (s : Nat) :
    skipAfter repl (e :: l) s = skipAfter repl l (stepSkip repl s e) := rfl

theorem processEvents_append (repl : List (List Nat × List Nat))
    (l1 l2 : List XmlEvent) (s : Nat) :
    processEvents repl (l1 ++ l2) s =
      processEvents repl l1 s ++ processEvents repl l2 (skipAfter repl l1 s) := by
  induction l1 generalizing s with
  | nil => simp [processEvents, skipAfter]
  | cons e rest ih =>
    simp only [List.cons_append, processEvents, skipAfter_cons, ih,
      List.append_assoc, List.append_eq]

theorem emitEvent_suppressed (repl : List (List Nat × List Nat)) (s : Nat)
    (hs : 0 < s) (e : XmlEvent) : emitEvent repl s e = [] := by
  cases e <;> simp [emitEvent, hs]

/-- While the skip depth stays positive, the loop emits nothing. -/
theorem processEvents_suppressed (repl : List (List Nat × List Nat)) :
    ∀ (l : List XmlEvent) (s : Nat), 0 < s →
      (∀ i, i ≤ l.length → 1 ≤ skipAfter repl (l.take i) s) →
      processEvents repl l s = [] := by
  intro l
  induction l with
  | nil => intro s _ _; rfl
  | cons e rest ih =>
    intro s hs hpre
    have hstep : 1 ≤ stepSkip repl s e := by
      have := hpre 1 (by simp)
      simpa [skipAfter_cons, skipAfter_nil] using this
    simp only [processEvents, emitEvent_suppressed repl s hs e, List.nil_append]
    exact ih (stepSkip repl s e) hstep (fun i hi => by
      have := hpre (i + 1) (by simpa using Nat.succ_le_succ hi)
      simpa [List.take_succ_cons, skipAfter_cons] using this)

-- ---------------------------------------------------------------------------
-- C3 / C2 / C4
-- ---------------------------------------------------------------------------

/-- C3: patching any template body with an empty replacement map returns
the input bytes unchanged, whatever the event stream holds — even an
unparsable one — so no re-serialization happens. -/
theorem c3_empty_replacements (template : List Nat)
    (events : Except String (List XmlEvent)) :
    update_sheet_xml template events [] = .ok template := rfl

/-- Does the loop replace this event? (cell-opening node whose address is
in the replacement map.) -/
def isReplacedCellEvent (repl : List (List Nat × List Nat)) : XmlEvent → Bool
  | .start name attrs _ => (replacedLookup repl name attrs).isSome
  | .empty name attrs _ => (replacedLookup repl name attrs).isSome
  | _ => false

theorem emitEvent_frame (repl : List (List Nat × List Nat)) (e : XmlEvent)
    (he : isReplacedCellEvent repl e = false) :
    emitEvent repl 0 e = e.rawBytes ∧ stepSkip repl 0 e = 0 := by
  cases e with
  | start name attrs raw =>
    cases h : replacedLookup repl name attrs with
    | some rv => simp [isReplacedCellEvent, h] at he
    | none => simp [emitEvent, stepSkip, h, XmlEvent.rawBytes]
  | empty name attrs raw =>
    cases h : replacedLookup repl name attrs with
    | some rv => simp [isReplacedCellEvent, h] at he
    | none => simp [emitEvent, stepSkip, h, XmlEvent.rawBytes]
  | endTag name raw => simp [emitEvent, stepSkip, XmlEvent.rawBytes]
  | text raw => simp [emitEvent, stepSkip, XmlEvent.rawBytes]
  | comment raw => simp [emitEvent, stepSkip, XmlEvent.rawBytes]
  | cdata raw => simp [emitEvent, stepSkip, XmlEvent.rawBytes]
  | decl raw => simp [emitEvent, stepSkip, XmlEvent.rawBytes]
  | pi raw => simp [emitEvent, stepSkip, XmlEvent.rawBytes]
  | docType raw => simp [emitEvent, stepSkip, XmlEvent.rawBytes]

/-- C2: with a non-empty replacement map, any event reached at skip depth
zero that is not a replaced cell-opening node — a cell whose address is not
in the map, a closing tag, or any declaration / comment /
processing-instruction / text node — is re-emitted byte-for-byte, and the
stream after it continues un-suppressed. -/
theorem c2_untouched_frame (repl : List (List Nat × List Nat))
    (es1 es2 : List XmlEvent) (e : XmlEvent) (template : List Nat)
    (hr : repl ≠ []) (h0 : skipAfter repl es1 0 = 0)
    (he : isReplacedCellEvent repl e = false) :
    update_sheet_xml template (.ok (es1 ++ e :: es2)) repl =
      .ok (processEvents repl es1 0 ++ e.rawBytes ++ processEvents repl es2 0) := by
  obtain ⟨hemit, hstep⟩ := emitEvent_frame repl e he
  unfold update_sheet_xml
  rw [if_neg hr]
  dsimp only
  rw [processEvents_append, h0]
  simp only [processEvents, hemit, hstep, List.append_assoc]

/-- C2 witness: patching `<row><c r="A1"><v>x</v></c><c r="B1"><v>y</v></c></row>`
with `{A1 ↦ new}`: the opening node of the `B1` cell (address not in the
map) is re-emitted byte-for-byte after the replaced `A1` cell. -/
theorem c2_witness :
    update_sheet_xml (strCodes "ignored")
      (.ok ([XmlEvent.start (strCodes "row") [] (strCodes "<row>"),
             XmlEvent.start (strCodes "c") [(strCodes "r", strCodes "A1")]
               (strCodes "<c r=\"A1\">"),
             XmlEvent.start (strCodes "v") [] (strCodes "<v>"),
             XmlEvent.text (strCodes "x"),
             XmlEvent.endTag (strCodes "v") (strCodes "</v>"),
             XmlEvent.endTag (strCodes "c") (strCodes "</c>")] ++
            XmlEvent.start (strCodes "c") [(strCodes "r", strCodes "B1")]
               (strCodes "<c r=\"B1\">") ::
            [XmlEvent.start (strCodes "v") [] (strCodes "<v>"),
             XmlEvent.text (strCodes "y"),
             XmlEvent.endTag (strCodes "v") (strCodes "</v>"),
             XmlEvent.endTag (strCodes "c") (strCodes "</c>"),
             XmlEvent.endTag (strCodes "row") (strCodes "</row>")]))
      [(strCodes "A1", strCodes "new")] =
      .ok (processEvents [(strCodes "A1", strCodes "new")]
             [XmlEvent.start (strCodes "row") [] (strCodes "<row>"),
              XmlEvent.start (strCodes "c") [(strCodes "r", strCodes "A1")]
                (strCodes "<c r=\"A1\">"),
              XmlEvent.start (strCodes "v") [] (strCodes "<v>"),
              XmlEvent.text (strCodes "x"),
              XmlEvent.endTag (strCodes "v") (strCodes "</v>"),
              XmlEvent.endTag (strCodes "c") (strCodes "</c>")] 0 ++
           strCodes "<c r=\"B1\">" ++
           processEvents [(strCodes "A1", strCodes "new")]
             [XmlEvent.start (strCodes "v") [] (strCodes "<v>"),
              XmlEvent.text (strCodes "y"),
              XmlEvent.endTag (strCodes "v") (strCodes "</v>"),
              XmlEvent.endTag (strCodes "c") (strCodes "</c>"),
              XmlEvent.endTag (strCodes "row") (strCodes "</row>")] 0) :=
  c2_untouched_frame _ _ _ _ _ (by decide) (by decide) (by decide)

/-- C4: a cell-opening node whose address is in the replacement map is
replaced by `write_replaced_cell` — the original attributes minus `r` and
`t`, the fixed inline-string type, and the XML-escaped value as single text
child — and everything up to its matching `</c>` is suppressed. -/
theorem c4_replaced_cell (repl : List (List Nat × List Nat))
    (attrs : List (List Nat × List Nat)) (inner rest : List XmlEvent)
    (ref v raw endRaw template : List Nat)
    (href : attrValue attrs (strCodes "r") = some ref)
    (hv : lookupRepl repl ref = some v)
    (hpre : ∀ i, i ≤ inner.length → 1 ≤ skipAfter repl (inner.take i) 1)
    (hend : skipAfter repl inner 1 = 1) :
    update_sheet_xml template
      (.ok (XmlEvent.start (strCodes "c") attrs raw ::
            (inner ++ XmlEvent.endTag (strCodes "c") endRaw :: rest))) repl =
      .ok (write_replaced_cell ref v attrs ++ processEvents repl rest 0) := by
  have hr : repl ≠ [] := by
    intro h
    rw [h] at hv
    simp [lookupRepl] at hv
  have hlook : replacedLookup repl (strCodes "c") attrs = some (ref, v) := by
    unfold replacedLookup
    rw [if_pos rfl, href]
    dsimp only
    rw [hv]
  have hemit : emitEvent repl 0 (XmlEvent.start (strCodes "c") attrs raw) =
      write_replaced_cell ref v attrs := by
    simp [emitEvent, hlook]
  have hstep : stepSkip repl 0 (XmlEvent.start (strCodes "c") attrs raw) = 1 := by
    simp [stepSkip, hlook]
  unfold update_sheet_xml
  rw [if_neg hr]
  dsimp only
  simp only [processEvents]
  rw [hemit, hstep, processEvents_append, hend,
      processEvents_suppressed repl inner 1 (by omega) hpre]
  simp only [processEvents, List.nil_append]
  rw [emitEvent_suppressed repl 1 (by omega) (XmlEvent.endTag (strCodes "c") endRaw)]
  have hstep2 : stepSkip repl 1 (XmlEvent.endTag (strCodes "c") endRaw) = 0 := by
    simp [stepSkip]
  rw [hstep2]
  simp

/-- C4 witness: `<c r="A1" s="3"><f>1+1</f><v>2</v></c>` with replacement
`{A1 ↦ a<b}`: the formula and cached value children are suppressed and the
emitted node keeps `s="3"`, drops `r`/`t` duplicates, and escapes the
value. -/
theorem c4_witness :
    update_sheet_xml (strCodes "ignored")
      (.ok (XmlEvent.start (strCodes "c")
              [(strCodes "r", strCodes "A1"), (strCodes "s", strCodes "3")]
              (strCodes "<c r=\"A1\" s=\"3\">") ::
            ([XmlEvent.start (strCodes "f") [] (strCodes "<f>"),
              XmlEvent.text (strCodes "1+1"),
              XmlEvent.endTag (strCodes "f") (strCodes "</f>"),
              XmlEvent.start (strCodes "v") [] (strCodes "<v>"),
              XmlEvent.text (strCodes "2"),
              XmlEvent.endTag (strCodes "v") (strCodes "</v>")] ++
             XmlEvent.endTag (strCodes "c") (strCodes "</c>") ::
             [XmlEvent.endTag (strCodes "row") (strCodes "</row>")])))
      [(strCodes "A1", strCodes "a<b")] =
      .ok (write_replaced_cell (strCodes "A1") (strCodes "a<b")
             [(strCodes "r", strCodes "A1"), (strCodes "s", strCodes "3")] ++
           processEvents [(strCodes "A1", strCodes "a<b")]
             [XmlEvent.endTag (strCodes "row") (strCodes "</row>")] 0) :=
  c4_replaced_cell _ _ _ _ _ _ _ _ _ (by decide) (by decide) (by decide) (by decide)

/-- The replaced `A1` cell of the witness template, fully evaluated: the
`s="3"` attribute survives, `r`/`t` are not duplicated, the type is
`inlineStr`, and `a<b` is escaped to `a&lt;b`. -/
example :
    write_replaced_cell (strCodes "A1") (strCodes "a<b")
      [(strCodes "r", strCodes "A1"), (strCodes "s", strCodes "3")] =
      strCodes "<c r=\"A1\" s=\"3\" t=\"inlineStr\"><is><t>a&lt;b</t></is></c>" := by
  decide

-- ---------------------------------------------------------------------------
-- Row Materializer (bulk_create.rs 99-107, shared_state.rs 58-62)
-- ---------------------------------------------------------------------------

/-- `CellMapping` (shared_state.rs 58-62). -/
structure CellMapping where
  column_index : Nat
  cell_ref : List Nat
deriving DecidableEq

/-- The per-row replacement map (bulk_create.rs 99-107): for each mapping
in order, decode its destination and look up the row value at its source
column; insert `(label, value)` into the map when both succeed, overwriting
an earlier binding of the same label. -/
def replacements_for_row (mappings : List CellMapping) (row : List (List Nat)) :
    List (List Nat × List Nat) :=
  mappings.foldl (fun acc m =>
    match parse_cell_reference m.cell_ref, row[m.column_index]? with
    | some rc, some value => insertRepl acc (encode_cell rc.1 rc.2) value
    | _, _ => acc) []

theorem lookupRepl_insertRepl (l : List (List Nat × List Nat)) (k v : List Nat) :
    lookupRepl (insertRepl l k v) k = some v := by
  induction l with
  | nil => simp [insertRepl, lookupRepl]
  | cons kv rest ih =>
    obtain ⟨k0, v0⟩ := kv
    by_cases h : k0 = k
    · simp [insertRepl, lookupRepl, h]
    · simp [insertRepl, lookupRepl, h, ih]

/-- C8: the materializer walks the mappings in order; a mapping whose
source column is beyond the row's length contributes nothing, and when two
mappings target the same destination address, the later one's value wins. -/
theorem c8_materializer :
    (∀ (ms1 : List CellMapping) (m : CellMapping) (ms2 : List CellMapping)
       (row : List (List Nat)), row.length ≤ m.column_index →
       replacements_for_row (ms1 ++ m :: ms2) row =
         replacements_for_row (ms1 ++ ms2) row)
    ∧ (∀ (ms : List CellMapping) (m : CellMapping) (row : List (List Nat))
         (r c : Nat) (v : List Nat),
         parse_cell_reference m.cell_ref = some (r, c) →
         row[m.column_index]? = some v →
         lookupRepl (replacements_for_row (ms ++ [m]) row) (encode_cell r c) =
           some v) := by
  constructor
  · intro ms1 m ms2 row hlen
    unfold replacements_for_row
    rw [List.foldl_append, List.foldl_append, List.foldl_cons]
    have hnone : row[m.column_index]? = none := by
      rw [List.getElem?_eq_none_iff]
      exact hlen
    cases hp : parse_cell_reference m.cell_ref <;> simp [hnone]
  · intro ms m row r c v hp hv
    unfold replacements_for_row
    rw [List.foldl_append, List.foldl_cons, List.foldl_nil, hp, hv]
    exact lookupRepl_insertRepl _ _ _

/-- C8 witness: with row `["x", "y"]`, a mapping with source column `5`
(beyond the row) contributes nothing, and of two mappings both targeting
`B2`, the later one's value (`"y"`) wins. -/
theorem c8_witness :
    replacements_for_row
        ([⟨0, strCodes "A1"⟩] ++ ⟨5, strCodes "C3"⟩ :: [⟨1, strCodes "B2"⟩])
        [strCodes "x", strCodes "y"] =
      replacements_for_row ([⟨0, strCodes "A1"⟩] ++ [⟨1, strCodes "B2"⟩])
        [strCodes "x", strCodes "y"]
    ∧ lookupRepl
        (replacements_for_row ([⟨0, strCodes "B2"⟩] ++ [⟨1, strCodes "B2"⟩])
          [strCodes "x", strCodes "y"])
        (encode_cell 1 1) = some (strCodes "y") :=
  ⟨c8_materializer.1 [⟨0, strCodes "A1"⟩] ⟨5, strCodes "C3"⟩ [⟨1, strCodes "B2"⟩]
      [strCodes "x", strCodes "y"] (by decide),
   c8_materializer.2 [⟨0, strCodes "B2"⟩] ⟨1, strCodes "B2"⟩
      [strCodes "x", strCodes "y"] 1 1 (strCodes "y") (by decide) (by decide)⟩

-- ---------------------------------------------------------------------------
-- Package Assembler data model (bulk_create.rs 558-582)
-- ---------------------------------------------------------------------------

/-- `WorksheetExport` (bulk_create.rs 558-566). -/
structure WorksheetExport where
  name : List Nat
  relationship_id : List Nat
  target : List Nat
  sheet_id : Nat
  data : List Nat
  relationship_part : Option (List Nat)
deriving DecidableEq

/-- `WorkbookRelationship` (bulk_create.rs 568-573). -/
structure WorkbookRelationship where
  id : List Nat
  target : List Nat
  type_attr : List Nat
deriving DecidableEq

deriving instance DecidableEq for Except

/-- `TemplateContext` (bulk_create.rs 575-582).  The two `Except`-valued
event streams stand for the quick-xml parses of `content_types_xml` and
`template_sheet_xml`, which the Rust code performs lazily inside
`build_content_types` and `update_sheet_xml` (`.error` when those bytes
are not well-formed XML); `TemplateContext::load` itself only checks their
UTF-8 validity, so a context can load successfully with an unparsable
content-type part. -/
structure TemplateContext where
  entries : List (List Nat × List Nat)
  content_types_events : Except String (List XmlEvent)
  preserved_relationships : List WorkbookRelationship
  next_relationship_index : Nat
  template_sheet_xml : List Nat
  template_sheet_events : Except String (List XmlEvent)
  template_sheet_relationship : Option (List Nat)
deriving DecidableEq

/-- The `WorksheetExport` pushed for input row `rowIndex` (bulk_create.rs
110-118): 1-based display name, wrapping-u32 relationship id above
`startRel`, per-row part path, truncating-cast sheet id, shared template
relationship part. -/
def mkExport (sheetName : List Nat) (ctx : TemplateContext)
    (startRel rowIndex : Nat) (data : List Nat) : WorksheetExport :=
  { name := sheetName ++ strCodes " " ++ natDecimal (rowIndex + 1)
    relationship_id := strCodes "rId" ++ natDecimal ((startRel + rowIndex + 1) % U32)
    target := strCodes "worksheets/sheet" ++ natDecimal (rowIndex + 1) ++ strCodes ".xml"
    sheet_id := (rowIndex + 1) % U32
    data := data
    relationship_part := ctx.template_sheet_relationship }

/-- The per-row loop of `build_and_write` (bulk_create.rs 98-119):
materialize the replacements, patch the template body, and append a
`WorksheetExport`; the first patching failure aborts the run. -/
def buildExportsFrom (sheetName : List Nat) (mappings : List CellMapping)
    (ctx : TemplateContext) (startRel : Nat) :
    Nat → List (List (List Nat)) → Except String (List WorksheetExport)
  | _, [] => .ok []
  | rowIndex, row :: more =>
    match update_sheet_xml ctx.template_sheet_xml ctx.template_sheet_events
        (replacements_for_row mappings row) with
    | .error e => .error e
    | .ok data =>
      match buildExportsFrom sheetName mappings ctx startRel (rowIndex + 1) more with
      | .error e => .error e
      | .ok rest => .ok (mkExport sheetName ctx startRel rowIndex data :: rest)

-- ---------------------------------------------------------------------------
-- Package-level document builders (bulk_create.rs 429-556)
-- ---------------------------------------------------------------------------

/-- `build_workbook_xml` (bulk_create.rs 429-443). -/
def build_workbook_xml (sheets : List WorksheetExport) : List Nat :=
  strCodes "<?xml version=\"1.0\" encoding=\"UTF-8\" standalone=\"yes\"?><workbook xmlns=\"http://schemas.openxmlformats.org/spreadsheetml/2006/main\" xmlns:r=\"http://schemas.openxmlformats.org/officeDocument/2006/relationships\"><sheets>" ++
  sheets.foldl (fun acc s =>
    acc ++ strCodes "<sheet name=\"" ++ xml_escape s.name ++
    strCodes "\" sheetId=\"" ++ natDecimal s.sheet_id ++
    strCodes "\" r:id=\"" ++ s.relationship_id ++ strCodes "\"/>") [] ++
  strCodes "</sheets></workbook>"

/-- The XML header of a relationship table (bulk_create.rs 446-448). -/
def relsHeader : List Nat :=
  strCodes "<?xml version=\"1.0\" encoding=\"UTF-8\" standalone=\"yes\"?><Relationships xmlns=\"http://schemas.openxmlformats.org/package/2006/relationships\">"

/-- The closing tag of a relationship table (bulk_create.rs 464). -/
def relsFooter : List Nat := strCodes "</Relationships>"

/-- One preserved relationship as rendered by `build_workbook_rels`
(bulk_create.rs 449-456). -/
def renderRelationship (rel : WorkbookRelationship) : List Nat :=
  strCodes "<Relationship Id=\"" ++ xml_escape rel.id ++
  strCodes "\" Type=\"" ++ xml_escape rel.type_attr ++
  strCodes "\" Target=\"" ++ xml_escape rel.target ++ strCodes "\"/>"

/-- One generated worksheet relationship as rendered by
`build_workbook_rels` (bulk_create.rs 457-463). -/
def renderSheetRelationship (s : WorksheetExport) : List Nat :=
  strCodes "<Relationship Id=\"" ++ xml_escape s.relationship_id ++
  strCodes "\" Type=\"http://schemas.openxmlformats.org/officeDocument/2006/relationships/worksheet\" Target=\"" ++
  xml_escape s.target ++ strCodes "\"/>"

/-- `build_workbook_rels` (bulk_create.rs 445-466): preserved
relationships first, then one worksheet relationship per generated
sheet. -/
def build_workbook_rels (preserved : List WorkbookRelationship)
    (sheets : List WorksheetExport) : List Nat :=
  relsHeader ++
  preserved.foldl (fun acc r => acc ++ renderRelationship r) [] ++
  sheets.foldl (fun acc s => acc ++ renderSheetRelationship s) [] ++
  relsFooter

/-- The fresh content-type override appended per generated sheet
(bulk_create.rs 495-498). -/
def contentTypesOverride (s : WorksheetExport) : List Nat :=
  strCodes "\n    <Override PartName=\"/xl/" ++ s.target ++
  strCodes "\" ContentType=\"application/vnd.openxmlformats-officedocument.spreadsheetml.worksheet+xml\"/>"

/-- `str::contains` with a string pattern: the pattern occurs as a
contiguous subsequence. -/
def containsSeq : List Nat → List Nat → Bool
  | [], sub => sub.isEmpty
  | c :: rest, sub => sub.isPrefixOf (c :: rest) || containsSeq rest sub

/-- `build_content_types` (bulk_create.rs 468-519): drop every original
worksheet `Override`, and inject one fresh override per generated sheet
just before `</Types>`; everything else passes through. -/
def build_content_types (events : List XmlEvent)
    (sheets : List WorksheetExport) : List Nat :=
  events.foldl (fun acc e =>
    match e with
    | .empty name attrs raw =>
      if name = strCodes "Override" then
        match attrValue attrs (strCodes "PartName") with
        | some pn =>
          if containsSeq pn (strCodes "/xl/worksheets/") then acc else acc ++ raw
        | none => acc ++ raw
      else acc ++ raw
    | .endTag name raw =>
      if name = strCodes "Types" then
        acc ++ sheets.foldl (fun a s => a ++ contentTypesOverride s) [] ++ raw
      else acc ++ raw
    | other => acc ++ other.rawBytes) []

/-- `build_root_relationships` (bulk_create.rs 521-523). -/
def build_root_relationships : List Nat :=
  strCodes "<?xml version=\"1.0\" encoding=\"UTF-8\" standalone=\"yes\"?><Relationships xmlns=\"http://schemas.openxmlformats.org/package/2006/relationships\"><Relationship Id=\"rId1\" Type=\"http://schemas.openxmlformats.org/officeDocument/2006/relationships/officeDocument\" Target=\"xl/workbook.xml\"/><Relationship Id=\"rId2\" Type=\"http://schemas.openxmlformats.org/package/2006/relationships/metadata/core-properties\" Target=\"docProps/core.xml\"/><Relationship Id=\"rId3\" Type=\"http://schemas.openxmlformats.org/officeDocument/2006/relationships/extended-properties\" Target=\"docProps/app.xml\"/></Relationships>"

/-- `build_app_doc` (bulk_create.rs 525-537). -/
def build_app_doc (sheets : List WorksheetExport) : List Nat :=
  strCodes "<?xml version=\"1.0\" encoding=\"UTF-8\" standalone=\"yes\"?><Properties xmlns=\"http://schemas.openxmlformats.org/officeDocument/2006/extended-properties\" xmlns:vt=\"http://schemas.openxmlformats.org/officeDocument/2006/docPropsVTypes\"><Application>Bulk Sheet Editor</Application><DocSecurity>0</DocSecurity><ScaleCrop>false</ScaleCrop><HeadingPairs><vt:vector size=\"2\" baseType=\"variant\"><vt:variant><vt:lpstr>Worksheets</vt:lpstr></vt:variant><vt:variant><vt:i4>" ++
  natDecimal sheets.length ++
  strCodes "</vt:i4></vt:variant></vt:vector></HeadingPairs><TitlesOfParts><vt:vector size=\"" ++
  natDecimal sheets.length ++
  strCodes "\" baseType=\"lpstr\">" ++
  sheets.foldl (fun acc s =>
    acc ++ strCodes "<vt:lpstr>" ++ xml_escape s.name ++ strCodes "</vt:lpstr>") [] ++
  strCodes "</vt:vector></TitlesOfParts><Company></Company><LinksUpToDate>false</LinksUpToDate><SharedDoc>false</SharedDoc><HyperlinksChanged>false</HyperlinksChanged><AppVersion>16.0300</AppVersion></Properties>"

/-- `build_core_doc` (bulk_create.rs 539-541). -/
def build_core_doc : List Nat :=
  strCodes "<?xml version=\"1.0\" encoding=\"UTF-8\" standalone=\"yes\"?><cp:coreProperties xmlns:cp=\"http://schemas.openxmlformats.org/package/2006/metadata/core-properties\" xmlns:dc=\"http://purl.org/dc/elements/1.1/\" xmlns:dcterms=\"http://purl.org/dc/terms/\" xmlns:dcmitype=\"http://purl.org/dc/dcmitype/\" xmlns:xsi=\"http://www.w3.org/2001/XMLSchema-instance\"><dc:creator>Bulk Sheet Editor</dc:creator><cp:lastModifiedBy>Bulk Sheet Editor</cp:lastModifiedBy><dcterms:created xsi:type=\"dcterms:W3CDTF\">2024-01-01T00:00:00Z</dcterms:created><dcterms:modified xsi:type=\"dcterms:W3CDTF\">2024-01-01T00:00:00Z</dcterms:modified></cp:coreProperties>"

/-- `should_skip_entry` (bulk_create.rs 543-551). -/
def should_skip_entry (name : List Nat) : Bool :=
  name == strCodes "[Content_Types].xml" ||
  name == strCodes "_rels/.rels" ||
  name == strCodes "docProps/app.xml" ||
  name == strCodes "docProps/core.xml" ||
  name == strCodes "xl/workbook.xml" ||
  name == strCodes "xl/_rels/workbook.xml.rels" ||
  (strCodes "xl/worksheets/").isPrefixOf name

/-- `sheet_relationship_path` (bulk_create.rs 553-556):
`folder/_rels/file.rels` for a `folder/file` target, `None` without a
slash. -/
def sheet_relationship_path (target : List Nat) : Option (List Nat) :=
  let file := (target.reverse.takeWhile (fun c => c != 47)).reverse
  if file.length = target.length then none
  else
    some (target.take (target.length - file.length - 1) ++
          strCodes "/_rels/" ++ file ++ strCodes ".rels")

/-- The zip entries written for one generated sheet (bulk_create.rs
231-243): the sheet body, then its optional relationship part at the
conventional sibling path. -/
def sheetZipEntries (s : WorksheetExport) : List (List Nat × List Nat) :=
  (strCodes "xl/" ++ s.target, s.data) ::
  (match s.relationship_part, sheet_relationship_path s.target with
   | some relData, some relPath => [(strCodes "xl/" ++ relPath, relData)]
   | _, _ => [])

/-- The complete ordered entry list of a successfully written archive
(bulk_create.rs 204-252): the six rewritten package-level documents, the
generated sheets, then every original entry not skipped. -/
def zipEntriesFor (ctx : TemplateContext) (contentTypes : List Nat)
    (sheets : List WorksheetExport) : List (List Nat × List Nat) :=
  [(strCodes "[Content_Types].xml", contentTypes),
   (strCodes "_rels/.rels", build_root_relationships),
   (strCodes "docProps/app.xml", build_app_doc sheets),
   (strCodes "docProps/core.xml", build_core_doc),
   (strCodes "xl/workbook.xml", build_workbook_xml sheets),
   (strCodes "xl/_rels/workbook.xml.rels", build_workbook_rels ctx.preserved_relationships sheets)] ++
  (sheets.map sheetZipEntries).flatten ++
  ctx.entries.filter (fun e => !should_skip_entry e.1)

/-- `write_workbook_from_template` (bulk_create.rs 188-255).  The first
component models the destination file: `File::create(path)` runs *before*
any package document is assembled, so the destination exists (`some`)
from that point on even if assembling `[Content_Types].xml` then fails;
local I/O itself is assumed to succeed. -/
def write_workbook_from_template (ctx : TemplateContext)
    (sheets : List WorksheetExport) :
    Option (List (List Nat × List Nat)) × Except String Unit :=
  match ctx.content_types_events with
  | .error e => (some [], .error e)
  | .ok ctEvents =>
    (some (zipEntriesFor ctx (build_content_types ctEvents sheets) sheets), .ok ())

/-- `BulkCreateModule::build_and_write` (bulk_create.rs 68-123), with the
zip loading of `TemplateContext::load` abstracted as the `Except`-valued
`load` argument.  Returns the modelled destination-file state and the
result (`Ok` carries the generated sheet count). -/
def build_and_write (sheetName : List Nat) (rawMappings : List CellMapping)
    (rows : List (List (List Nat))) (load : Except String TemplateContext) :
    Option (List (List Nat × List Nat)) × Except String Nat :=
  let mappings := rawMappings.filter (fun m => !(trimCodes m.cell_ref).isEmpty)
  if rows = [] then (none, .error "CSV file does not contain data rows.")
  else if mappings = [] then (none, .error "No column mappings configured.")
  else
    match load with
    | .error e => (none, .error e)
    | .ok ctx =>
      match buildExportsFrom sheetName mappings ctx ctx.next_relationship_index 0 rows with
      | .error e => (none, .error e)
      | .ok exports =>
        match write_workbook_from_template ctx exports with
        | (dest, .error e) => (dest, .error e)
        | (dest, .ok _) => (dest, .ok exports.length)

-- ---------------------------------------------------------------------------
-- C1
-- ---------------------------------------------------------------------------

theorem buildExportsFrom_length (sheetName : List Nat) (mappings : List CellMapping)
    (ctx : TemplateContext) (startRel : Nat) :
    ∀ (rows : List (List (List Nat))) (i : Nat) (es : List WorksheetExport),
      buildExportsFrom sheetName mappings ctx startRel i rows = .ok es →
      es.length = rows.length := by
  intro rows
  induction rows with
  | nil =>
    intro i es h
    simp only [buildExportsFrom] at h
    cases h
    rfl
  | cons row more ih =>
    intro i es h
    simp only [buildExportsFrom] at h
    cases hupd : update_sheet_xml ctx.template_sheet_xml ctx.template_sheet_events
        (replacements_for_row mappings row) with
    | error e => rw [hupd] at h; cases h
    | ok data =>
      rw [hupd] at h
      cases hrec : buildExportsFrom sheetName mappings ctx startRel (i + 1) more with
      | error e => rw [hrec] at h; cases h
      | ok rest =>
        rw [hrec] at h
        cases h
        simp [ih (i + 1) rest hrec]

theorem buildExportsFrom_get (sheetName : List Nat) (mappings : List CellMapping)
    (ctx : TemplateContext) (startRel : Nat) :
    ∀ (rows : List (List (List Nat))) (i : Nat) (es : List WorksheetExport),
      buildExportsFrom sheetName mappings ctx startRel i rows = .ok es →
      ∀ j, j < rows.length →
        ∃ d, es[j]? = some (mkExport sheetName ctx startRel (i + j) d) := by
  intro rows
  induction rows with
  | nil => intro i es h j hj; simp at hj
  | cons row more ih =>
    intro i es h j hj
    simp only [buildExportsFrom] at h
    cases hupd : update_sheet_xml ctx.template_sheet_xml ctx.template_sheet_events
        (replacements_for_row mappings row) with
    | error e => rw [hupd] at h; cases h
    | ok data =>
      rw [hupd] at h
      cases hrec : buildExportsFrom sheetName mappings ctx startRel (i + 1) more with
      | error e => rw [hrec] at h; cases h
      | ok rest =>
        rw [hrec] at h
        cases h
        match j with
        | 0 => exact ⟨data, by simp⟩
        | j + 1 =>
          obtain ⟨d, hd⟩ := ih (i + 1) rest hrec j (by simpa using Nat.lt_of_succ_lt_succ hj)
          refine ⟨d, ?_⟩
          simpa [Nat.add_comm, Nat.add_assoc, Nat.add_left_comm] using hd

theorem natDecimal_injective {x y : Nat} (h : natDecimal x = natDecimal y) : x = y := by
  have := congrArg digitsVal h
  rwa [digitsVal_natDecimal, digitsVal_natDecimal] at this

/-- C1 (amended): whenever the per-row loop succeeds on at most `2^32`
input rows, it yields one generated sheet per input row, in row order, the
`i`-th named `"<template sheet name> i"` with 1-based `i`, with pairwise
distinct relationship ids and pairwise distinct part names; and a
successful `build_and_write` run returns the number of input rows. -/
theorem c1_generation (sheetName : List Nat) (mappings : List CellMapping)
    (ctx : TemplateContext) (startRel : Nat) (rows : List (List (List Nat)))
    (es : List WorksheetExport)
    (hok : buildExportsFrom sheetName mappings ctx startRel 0 rows = .ok es)
    (hn : rows.length ≤ U32) :
    es.length = rows.length
    ∧ (∀ j, j < rows.length → (es[j]?).map WorksheetExport.name =
        some (sheetName ++ strCodes " " ++ natDecimal (j + 1)))
    ∧ (∀ (j k : Nat) (a b : WorksheetExport), j < k → es[j]? = some a → es[k]? = some b →
        a.relationship_id ≠ b.relationship_id ∧ a.target ≠ b.target)
    ∧ (∀ rawMappings load dest n,
        build_and_write sheetName rawMappings rows load = (dest, .ok n) →
        n = rows.length) := by
  have hlen := buildExportsFrom_length sheetName mappings ctx startRel rows 0 es hok
  refine ⟨hlen, ?_, ?_, ?_⟩
  · intro j hj
    obtain ⟨d, hd⟩ := buildExportsFrom_get sheetName mappings ctx startRel rows 0 es hok j hj
    rw [hd]
    simp [mkExport]
  · intro j k a b hjk ha hb
    have hk : k < es.length := by
      by_contra hcon
      rw [List.getElem?_eq_none_iff.mpr (by omega)] at hb
      cases hb
    have hkr : k < rows.length := by omega
    have hjr : j < rows.length := by omega
    obtain ⟨da, hda⟩ := buildExportsFrom_get sheetName mappings ctx startRel rows 0 es hok j hjr
    obtain ⟨db, hdb⟩ := buildExportsFrom_get sheetName mappings ctx startRel rows 0 es hok k hkr
    rw [ha] at hda
    rw [hb] at hdb
    have ha2 : a = mkExport sheetName ctx startRel (0 + j) da := by
      injection hda
    have hb2 : b = mkExport sheetName ctx startRel (0 + k) db := by
      injection hdb
    subst ha2
    subst hb2
    constructor
    · intro hcon
      simp only [mkExport, Nat.zero_add] at hcon
      have hdec := List.append_cancel_left hcon
      have hmod : (startRel + j + 1) % U32 = (startRel + k + 1) % U32 :=
        natDecimal_injective hdec
      have hdvd : U32 ∣ (startRel + k + 1) - (startRel + j + 1) :=
        (Nat.modEq_iff_dvd' (by omega)).mp hmod
      have hsub : (startRel + k + 1) - (startRel + j + 1) = k - j := by omega
      rw [hsub] at hdvd
      have := Nat.le_of_dvd (by omega) hdvd
      have : U32 = 4294967296 := rfl
      omega
    · intro hcon
      simp only [mkExport, Nat.zero_add] at hcon
      have h1 := List.append_cancel_right hcon
      have h2 := List.append_cancel_left h1
      have := natDecimal_injective h2
      omega
  · intro rawMappings load dest n h
    unfold build_and_write at h
    by_cases h1 : rows = []
    · rw [if_pos h1] at h
      simp at h
    · rw [if_neg h1] at h
      by_cases h2 : rawMappings.filter (fun m => !(trimCodes m.cell_ref).isEmpty) = []
      · rw [if_pos h2] at h
        simp at h
      · rw [if_neg h2] at h
        cases load with
        | error e => simp at h
        | ok ctx2 =>
          dsimp only at h
          cases hexp : buildExportsFrom sheetName
              (rawMappings.filter (fun m => !(trimCodes m.cell_ref).isEmpty)) ctx2
              ctx2.next_relationship_index 0 rows with
          | error e => rw [hexp] at h; simp at h
          | ok exports =>
            rw [hexp] at h
            dsimp only at h
            cases hw : write_workbook_from_template ctx2 exports with
            | mk dest2 res =>
              rw [hw] at h
              cases res with
              | error e => simp at h
              | ok u =>
                have hn2 : n = exports.length := by
                  have := congrArg Prod.snd h
                  simpa using this.symm
                rw [hn2]
                exact buildExportsFrom_length sheetName _ ctx2
                  ctx2.next_relationship_index rows 0 exports hexp

/-- A minimal loadable template context for concrete C1 runs. -/
def c1Ctx : TemplateContext :=
  { entries := []
    content_types_events := .ok []
    preserved_relationships := []
    next_relationship_index := 0
    template_sheet_xml := []
    template_sheet_events := .ok []
    template_sheet_relationship := none }

/-- On rows of empty cell lists the per-row loop always succeeds (each row
materializes an empty replacement map, so patching returns the template
unchanged). -/
theorem buildExportsFrom_replicate (k : Nat) :
    ∀ i, ∃ es, buildExportsFrom (strCodes "Sheet") [⟨0, strCodes "A1"⟩] c1Ctx 0 i
      (List.replicate k []) = .ok es := by
  induction k with
  | zero => intro i; exact ⟨[], rfl⟩
  | succ k ih =>
    intro i
    obtain ⟨es, hes⟩ := ih (i + 1)
    refine ⟨mkExport (strCodes "Sheet") c1Ctx 0 i [] :: es, ?_⟩
    rw [List.replicate_succ]
    simp only [buildExportsFrom]
    have hupd : update_sheet_xml c1Ctx.template_sheet_xml c1Ctx.template_sheet_events
        (replacements_for_row [⟨0, strCodes "A1"⟩] []) = .ok [] := by decide
    rw [hupd, hes]

/-- The exports of a run with `2^32 + 1` input rows (empty rows, one valid
mapping). -/
def c1CexExports : List WorksheetExport :=
  (buildExportsFrom (strCodes "Sheet") [⟨0, strCodes "A1"⟩] c1Ctx 0 0
    (List.replicate (U32 + 1) [])).toOption.getD []

/-- C1 counterexample: with `2^32 + 1` input rows the u32 relationship-id
counter wraps, so the run produces one sheet per row but the first sheet
and sheet number `2^32 + 1` both carry relationship id `"rId1"` — the ids
are not pairwise distinct as the claim states. -/
theorem c1_counterexample :
    c1CexExports.length = U32 + 1
    ∧ (c1CexExports[0]?).map WorksheetExport.relationship_id = some (strCodes "rId1")
    ∧ (c1CexExports[U32]?).map WorksheetExport.relationship_id = some (strCodes "rId1")
    ∧ (0 : Nat) ≠ U32 := by
  obtain ⟨es, hes⟩ := buildExportsFrom_replicate (U32 + 1) 0
  have hce : c1CexExports = es := by
    unfold c1CexExports
    rw [hes]
    rfl
  have hlen := buildExportsFrom_length (strCodes "Sheet") [⟨0, strCodes "A1"⟩] c1Ctx 0
    (List.replicate (U32 + 1) []) 0 es hes
  obtain ⟨d0, h0⟩ := buildExportsFrom_get (strCodes "Sheet") [⟨0, strCodes "A1"⟩] c1Ctx 0
    (List.replicate (U32 + 1) []) 0 es hes 0 (by simp)
  obtain ⟨d1, h1⟩ := buildExportsFrom_get (strCodes "Sheet") [⟨0, strCodes "A1"⟩] c1Ctx 0
    (List.replicate (U32 + 1) []) 0 es hes U32 (by simp)
  refine ⟨?_, ?_, ?_, by decide⟩
  · rw [hce, hlen, List.length_replicate]
  · rw [hce, h0]
    show some (strCodes "rId" ++ natDecimal ((0 + (0 + 0) + 1) % U32)) =
      some (strCodes "rId1")
    decide
  · rw [hce, h1]
    show some (strCodes "rId" ++ natDecimal ((0 + (0 + U32) + 1) % U32)) =
      some (strCodes "rId1")
    decide

/-- The exports of the spec's 3-row, 2-mapping example run. -/
def c1WitExports : List WorksheetExport :=
  (buildExportsFrom (strCodes "Sheet") [⟨0, strCodes "A1"⟩, ⟨1, strCodes "B2"⟩]
    c1Ctx 0 0 [[strCodes "x"], [strCodes "y"], [strCodes "z"]]).toOption.getD []

/-- C1 witness: the amended theorem applied to the spec's example — 3 input
rows, 2 mappings — yields 3 sheets with the stated names and pairwise
distinct ids and part names. -/
theorem c1_witness :
    c1WitExports.length = ([[strCodes "x"], [strCodes "y"], [strCodes "z"]] :
      List (List (List Nat))).length
    ∧ (∀ j, j < ([[strCodes "x"], [strCodes "y"], [strCodes "z"]] :
        List (List (List Nat))).length →
        (c1WitExports[j]?).map WorksheetExport.name =
          some (strCodes "Sheet" ++ strCodes " " ++ natDecimal (j + 1)))
    ∧ (∀ (j k : Nat) (a b : WorksheetExport), j < k → c1WitExports[j]? = some a →
        c1WitExports[k]? = some b →
        a.relationship_id ≠ b.relationship_id ∧ a.target ≠ b.target)
    ∧ (∀ rawMappings load dest n,
        build_and_write (strCodes "Sheet") rawMappings
          [[strCodes "x"], [strCodes "y"], [strCodes "z"]] load = (dest, .ok n) →
        n = ([[strCodes "x"], [strCodes "y"], [strCodes "z"]] :
          List (List (List Nat))).length) :=
  c1_generation (strCodes "Sheet") [⟨0, strCodes "A1"⟩, ⟨1, strCodes "B2"⟩] c1Ctx 0
    [[strCodes "x"], [strCodes "y"], [strCodes "z"]] c1WitExports
    (by decide) (by decide)

-- ---------------------------------------------------------------------------
-- C5 / C10
-- ---------------------------------------------------------------------------

/-- C5 (amended): every run that fails before the write phase — zero input
rows (the input-empty error), zero non-empty mappings, a template-loading
failure, or a patching failure — returns its error without ever creating
the destination file; (the write phase itself creates the destination
before the package documents are assembled, see `c5_counterexample`). -/
theorem c5_no_file_before_write :
    (∀ (sheetName : List Nat) (rawMappings : List CellMapping)
       (load : Except String TemplateContext),
       build_and_write sheetName rawMappings [] load =
         (none, .error "CSV file does not contain data rows."))
    ∧ (∀ (sheetName : List Nat) (rawMappings : List CellMapping)
         (rows : List (List (List Nat))) (load : Except String TemplateContext),
         rows ≠ [] →
         rawMappings.filter (fun m => !(trimCodes m.cell_ref).isEmpty) = [] →
         build_and_write sheetName rawMappings rows load =
           (none, .error "No column mappings configured."))
    ∧ (∀ (sheetName : List Nat) (rawMappings : List CellMapping)
         (rows : List (List (List Nat))) (e : String),
         rows ≠ [] →
         rawMappings.filter (fun m => !(trimCodes m.cell_ref).isEmpty) ≠ [] →
         build_and_write sheetName rawMappings rows (.error e) = (none, .error e))
    ∧ (∀ (sheetName : List Nat) (rawMappings : List CellMapping)
         (rows : List (List (List Nat))) (ctx : TemplateContext) (e : String),
         rows ≠ [] →
         rawMappings.filter (fun m => !(trimCodes m.cell_ref).isEmpty) ≠ [] →
         buildExportsFrom sheetName
           (rawMappings.filter (fun m => !(trimCodes m.cell_ref).isEmpty)) ctx
           ctx.next_relationship_index 0 rows = .error e →
         build_and_write sheetName rawMappings rows (.ok ctx) = (none, .error e)) := by
  refine ⟨?_, ?_, ?_, ?_⟩
  · intro sheetName rawMappings load
    unfold build_and_write
    rw [if_pos rfl]
  · intro sheetName rawMappings rows load hrows hmaps
    unfold build_and_write
    rw [if_neg hrows, if_pos hmaps]
  · intro sheetName rawMappings rows e hrows hmaps
    unfold build_and_write
    rw [if_neg hrows, if_neg hmaps]
  · intro sheetName rawMappings rows ctx e hrows hmaps hexp
    unfold build_and_write
    rw [if_neg hrows, if_neg hmaps]
    dsimp only
    rw [hexp]

/-- C5 witness: the amended theorem applied at concrete inputs — a 0-row
run fails with the input-empty error and creates no file, and a run whose
template sheet body is not well-formed XML fails while patching and
creates no file. -/
theorem c5_witness :
    build_and_write (strCodes "Sheet") [⟨0, strCodes "A1"⟩] [] (.ok c1Ctx) =
      (none, .error "CSV file does not contain data rows.")
    ∧ build_and_write (strCodes "Sheet") [⟨0, strCodes "A1"⟩] [[strCodes "v"]]
        (.ok { entries := []
               content_types_events := .ok []
               preserved_relationships := []
               next_relationship_index := 0
               template_sheet_xml := strCodes "<not-xml"
               template_sheet_events := .error "malformed template sheet"
               template_sheet_relationship := none }) =
      (none, .error "malformed template sheet") :=
  ⟨c5_no_file_before_write.1 (strCodes "Sheet") [⟨0, strCodes "A1"⟩] (.ok c1Ctx),
   c5_no_file_before_write.2.2.2 (strCodes "Sheet") [⟨0, strCodes "A1"⟩]
     [[strCodes "v"]] _ "malformed template sheet"
     (by decide) (by decide) (by decide)⟩

/-- A context whose `[Content_Types].xml` bytes load (they are valid
UTF-8) but are not well-formed XML, so `build_content_types` fails at
write time. -/
def c5Ctx : TemplateContext :=
  { entries := []
    content_types_events := .error "content types are not well-formed XML"
    preserved_relationships := []
    next_relationship_index := 0
    template_sheet_xml := []
    template_sheet_events := .ok []
    template_sheet_relationship := none }

/-- C5 counterexample: `write_workbook_from_template` calls
`File::create` before assembling any package document, so a run whose
content-type rewrite fails still leaves a (partial, here empty) file at
the destination — refuting the claim that every failing run leaves no
file and that the destination is only created after the full byte content
is assembled. -/
theorem c5_counterexample :
    build_and_write (strCodes "Sheet") [⟨0, strCodes "A1"⟩] [[]] (.ok c5Ctx) =
      (some [], .error "content types are not well-formed XML")
    ∧ (some ([] : List (List Nat × List Nat))) ≠
        (none : Option (List (List Nat × List Nat))) := by
  exact ⟨by decide, by decide⟩

/-- C10 (amended): a mapping whose destination text fails to decode is
dropped from the effective replacement set (it contributes nothing to any
row's replacements) and is not fatal; the run fails with the no-mappings
error exactly on the filter the code applies — when every mapping's
destination text is empty after trimming — not when destinations are
merely invalid. -/
theorem c10_invalid_mapping_dropped :
    (∀ (ms1 : List CellMapping) (m : CellMapping) (ms2 : List CellMapping)
       (row : List (List Nat)),
       parse_cell_reference m.cell_ref = none →
       replacements_for_row (ms1 ++ m :: ms2) row =
         replacements_for_row (ms1 ++ ms2) row)
    ∧ (∀ (sheetName : List Nat) (rawMappings : List CellMapping)
         (rows : List (List (List Nat))) (load : Except String TemplateContext),
         rows ≠ [] →
         rawMappings.filter (fun m => !(trimCodes m.cell_ref).isEmpty) = [] →
         build_and_write sheetName rawMappings rows load =
           (none, .error "No column mappings configured.")) := by
  constructor
  · intro ms1 m ms2 row hp
    unfold replacements_for_row
    rw [List.foldl_append, List.foldl_append, List.foldl_cons, hp]
  · intro sheetName rawMappings rows load hrows hmaps
    unfold build_and_write
    rw [if_neg hrows, if_pos hmaps]

/-- C10 witness: the amended theorem at concrete inputs — an undecodable
destination `"!!"` contributes nothing to the replacements, and a mapping
list whose only destination is whitespace fails with the no-mappings
error. -/
theorem c10_witness :
    replacements_for_row ([⟨0, strCodes "A1"⟩] ++ ⟨1, strCodes "!!"⟩ :: [])
        [strCodes "x", strCodes "y"] =
      replacements_for_row ([⟨0, strCodes "A1"⟩] ++ []) [strCodes "x", strCodes "y"]
    ∧ build_and_write (strCodes "Sheet") [⟨0, strCodes " "⟩] [[strCodes "v"]]
        (.ok c1Ctx) = (none, .error "No column mappings configured.") :=
  ⟨c10_invalid_mapping_dropped.1 [⟨0, strCodes "A1"⟩] ⟨1, strCodes "!!"⟩ []
     [strCodes "x", strCodes "y"] (by decide),
   c10_invalid_mapping_dropped.2 (strCodes "Sheet") [⟨0, strCodes " "⟩]
     [[strCodes "v"]] (.ok c1Ctx) (by decide) (by decide)⟩

/-- A loadable context for the C10 counterexample run. -/
def c10Ctx : TemplateContext :=
  { entries := []
    content_types_events := .ok []
    preserved_relationships := []
    next_relationship_index := 0
    template_sheet_xml := []
    template_sheet_events := .ok []
    template_sheet_relationship := none }

/-- C10 counterexample: a mapping list whose every entry has an unusable
(invalid but non-empty) destination does *not* fail with the no-mappings
error — the run succeeds and generates one sheet, because only
empty-after-trim destinations are filtered out. -/
theorem c10_counterexample :
    parse_cell_reference (strCodes "!!") = none
    ∧ (build_and_write (strCodes "Sheet") [⟨0, strCodes "!!"⟩] [[strCodes "v"]]
        (.ok c10Ctx)).2 = .ok 1
    ∧ (.ok 1 : Except String Nat) ≠ .error "No column mappings configured." := by
  exact ⟨by decide, by decide, by decide⟩

-- ---------------------------------------------------------------------------
-- Workbook relationship parsing (bulk_create.rs 684-749)
-- ---------------------------------------------------------------------------

/-- `value.strip_prefix("rId")` then `suffix.parse::<u32>()`
(bulk_create.rs 712-716). -/
def ridSuffixVal (v : List Nat) : Option Nat :=
  if v.take 3 = strCodes "rId" then parseU32 (v.drop 3) else none

/-- The per-relationship attribute loop state (bulk_create.rs 703-722):
the last-seen `Id` / `Target` / `Type` values and the running maximum
numeric `rId` suffix. -/
structure RelAttrState where
  id : Option (List Nat)
  target : Option (List Nat)
  kind : Option (List Nat)
  maxId : Nat
deriving DecidableEq

/-- One step of the attribute loop (bulk_create.rs 706-722). -/
def relAttrStep (st : RelAttrState) (kv : List Nat × List Nat) : RelAttrState :=
  if kv.1 = strCodes "Id" then
    { st with
      id := some kv.2
      maxId :=
        match ridSuffixVal kv.2 with
        | some n => max st.maxId n
        | none => st.maxId }
  else if kv.1 = strCodes "Target" then { st with target := some kv.2 }
  else if kv.1 = strCodes "Type" then { st with kind := some kv.2 }
  else st

/-- The attribute loop over one `Relationship` node. -/
def relAttrState (attrs : List (List Nat × List Nat)) (maxId : Nat) : RelAttrState :=
  attrs.foldl relAttrStep { id := none, target := none, kind := none, maxId := maxId }

/-- Extraction of one `Relationship` node (bulk_create.rs 703-726): the
three attributes are mandatory, checked in the order id, target, type. -/
def parseRelItem (maxId : Nat) (attrs : List (List Nat × List Nat)) :
    Except String (List Nat × List Nat × List Nat × Nat) :=
  let st := relAttrState attrs maxId
  match st.id with
  | none => .error "Relationship id missing"
  | some i =>
    match st.target with
    | none => .error "Relationship target missing"
    | some t =>
      match st.kind with
      | none => .error "Relationship type missing"
      | some k => .ok (i, t, k, st.maxId)

/-- The event loop of `parse_workbook_relationships` (bulk_create.rs
695-744): worksheet-typed relationships either resolve the template target
(id match) or are dropped; all others are preserved in order; every
numeric `rId` suffix raises the running maximum. -/
def pwrLoop (tid : List Nat) :
    List XmlEvent → Option (List Nat) → List WorkbookRelationship → Nat →
    Except String (Option (List Nat) × List WorkbookRelationship × Nat)
  | [], tt, preserved, maxId => .ok (tt, preserved, maxId)
  | e :: rest, tt, preserved, maxId =>
    match e with
    | .empty name attrs _ =>
      if name = strCodes "Relationship" then
        match parseRelItem maxId attrs with
        | .error err => .error err
        | .ok (i, t, k, maxId2) =>
          if (strCodes "/worksheet").isSuffixOf k then
            if i = tid then pwrLoop tid rest (some t) preserved maxId2
            else pwrLoop tid rest tt preserved maxId2
          else pwrLoop tid rest tt (preserved ++ [⟨i, t, k⟩]) maxId2
      else pwrLoop tid rest tt preserved maxId
    | _ => pwrLoop tid rest tt preserved maxId

/-- `parse_workbook_relationships` (bulk_create.rs 684-749): the template
sheet's target part name, the preserved non-worksheet relationships, and
the highest numeric `rId` suffix. -/
def parse_workbook_relationships (events : Except String (List XmlEvent))
    (tid : List Nat) :
    Except String (List Nat × List WorkbookRelationship × Nat) :=
  match events with
  | .error e => .error e
  | .ok evs =>
    match pwrLoop tid evs none [] 0 with
    | .error e => .error e
    | .ok (tt, preserved, maxId) =>
      match tt with
      | none => .error "Template sheet relationship missing"
      | some target => .ok (target, preserved, maxId)

theorem relAttrStep_maxId_le (st : RelAttrState) (kv : List Nat × List Nat) :
    st.maxId ≤ (relAttrStep st kv).maxId := by
  unfold relAttrStep
  split
  · cases h : ridSuffixVal kv.2 <;> simp [h, Nat.le_max_left]
  · split
    · simp
    · split <;> simp

theorem relAttrStep_id_bound (st : RelAttrState) (kv : List Nat × List Nat)
    (hinv : ∀ i v, st.id = some i → ridSuffixVal i = some v → v ≤ st.maxId) :
    ∀ i v, (relAttrStep st kv).id = some i → ridSuffixVal i = some v →
      v ≤ (relAttrStep st kv).maxId := by
  intro i v hid hsv
  unfold relAttrStep at hid ⊢
  by_cases h1 : kv.1 = strCodes "Id"
  · rw [if_pos h1] at hid ⊢
    simp only at hid
    injection hid with hid
    subst hid
    cases h : ridSuffixVal kv.2 with
    | none => rw [h] at hsv; cases hsv
    | some n =>
      rw [h] at hsv
      injection hsv with hsv
      subst hsv
      simp [h, Nat.le_max_right]
  · rw [if_neg h1] at hid ⊢
    by_cases h2 : kv.1 = strCodes "Target"
    · rw [if_pos h2] at hid ⊢
      exact hinv i v hid hsv
    · rw [if_neg h2] at hid ⊢
      by_cases h3 : kv.1 = strCodes "Type"
      · rw [if_pos h3] at hid ⊢
        exact hinv i v hid hsv
      · rw [if_neg h3] at hid ⊢
        exact hinv i v hid hsv

theorem relAttrFold_inv (attrs : List (List Nat × List Nat)) :
    ∀ st : RelAttrState,
      st.maxId ≤ (attrs.foldl relAttrStep st).maxId
      ∧ ((∀ i v, st.id = some i → ridSuffixVal i = some v → v ≤ st.maxId) →
         ∀ i v, (attrs.foldl relAttrStep st).id = some i →
           ridSuffixVal i = some v → v ≤ (attrs.foldl relAttrStep st).maxId) := by
  induction attrs with
  | nil => intro st; exact ⟨le_rfl, fun h => h⟩
  | cons kv rest ih =>
    intro st
    rw [List.foldl_cons]
    refine ⟨le_trans (relAttrStep_maxId_le st kv) (ih (relAttrStep st kv)).1, ?_⟩
    intro hinv
    exact (ih (relAttrStep st kv)).2 (relAttrStep_id_bound st kv hinv)

/-- `parseRelItem` never lowers the running maximum, and the id it returns
has its numeric suffix bounded by the returned maximum. -/
theorem parseRelItem_bound (maxId : Nat) (attrs : List (List Nat × List Nat))
    (i t k : List Nat) (maxId2 : Nat)
    (h : parseRelItem maxId attrs = .ok (i, t, k, maxId2)) :
    maxId ≤ maxId2 ∧ ∀ v, ridSuffixVal i = some v → v ≤ maxId2 := by
  unfold parseRelItem at h
  dsimp only at h
  have hfold := relAttrFold_inv attrs
    { id := none, target := none, kind := none, maxId := maxId }
  cases hid : (relAttrState attrs maxId).id with
  | none => rw [hid] at h; cases h
  | some i0 =>
    rw [hid] at h
    cases ht : (relAttrState attrs maxId).target with
    | none => rw [ht] at h; cases h
    | some t0 =>
      rw [ht] at h
      cases hk : (relAttrState attrs maxId).kind with
      | none => rw [hk] at h; cases h
      | some k0 =>
        rw [hk] at h
        injection h with h
        simp only [Prod.mk.injEq] at h
        obtain ⟨hi, ht2, hk2, hm⟩ := h
        subst hi
        subst hm
        refine ⟨hfold.1, ?_⟩
        intro v hv
        exact hfold.2 (by intro i2 v2 hcon; cases hcon) i0 v hid hv

/-- Along a successful parse the running maximum never decreases, and
every preserved relationship is either inherited from the accumulator or
has its numeric `rId` suffix bounded by the final maximum. -/
theorem pwrLoop_bound (tid : List Nat) :
    ∀ (evs : List XmlEvent) (tt0 : Option (List Nat))
      (p0 : List WorkbookRelationship) (m0 : Nat) (tt : Option (List Nat))
      (p : List WorkbookRelationship) (m : Nat),
      pwrLoop tid evs tt0 p0 m0 = .ok (tt, p, m) →
      m0 ≤ m ∧ ∀ rel ∈ p, rel ∈ p0 ∨
        (∀ v, ridSuffixVal rel.id = some v → v ≤ m) := by
  intro evs
  induction evs with
  | nil =>
    intro tt0 p0 m0 tt p m h
    simp only [pwrLoop] at h
    injection h with h
    simp only [Prod.mk.injEq] at h
    obtain ⟨_, h2, h3⟩ := h
    subst h2
    subst h3
    exact ⟨le_rfl, fun rel hr => Or.inl hr⟩
  | cons e rest ih =>
    intro tt0 p0 m0 tt p m h
    cases e with
    | empty name attrs raw =>
      simp only [pwrLoop] at h
      by_cases hname : name = strCodes "Relationship"
      · rw [if_pos hname] at h
        cases hitem : parseRelItem m0 attrs with
        | error err => rw [hitem] at h; cases h
        | ok q =>
          obtain ⟨i, t, k, m2⟩ := q
          rw [hitem] at h
          dsimp only at h
          obtain ⟨hm02, hbound⟩ := parseRelItem_bound m0 attrs i t k m2 hitem
          by_cases hws : (strCodes "/worksheet").isSuffixOf k = true
          · rw [if_pos hws] at h
            by_cases hid : i = tid
            · rw [if_pos hid] at h
              obtain ⟨hle, hmem⟩ := ih _ _ _ _ _ _ h
              exact ⟨le_trans hm02 hle, hmem⟩
            · rw [if_neg hid] at h
              obtain ⟨hle, hmem⟩ := ih _ _ _ _ _ _ h
              exact ⟨le_trans hm02 hle, hmem⟩
          · rw [if_neg hws] at h
            obtain ⟨hle, hmem⟩ := ih _ _ _ _ _ _ h
            refine ⟨le_trans hm02 hle, ?_⟩
            intro rel hrel
            rcases hmem rel hrel with hin | hb
            · rcases List.mem_append.mp hin with hin0 | hin1
              · exact Or.inl hin0
              · right
                have heq : rel = ⟨i, t, k⟩ := List.mem_singleton.mp hin1
                subst heq
                intro v hv
                exact le_trans (hbound v hv) hle
            · exact Or.inr hb
      · rw [if_neg hname] at h
        exact ih _ _ _ _ _ _ h
    | start name attrs raw =>
      simp only [pwrLoop] at h
      exact ih _ _ _ _ _ _ h
    | endTag name raw =>
      simp only [pwrLoop] at h
      exact ih _ _ _ _ _ _ h
    | text raw =>
      simp only [pwrLoop] at h
      exact ih _ _ _ _ _ _ h
    | comment raw =>
      simp only [pwrLoop] at h
      exact ih _ _ _ _ _ _ h
    | cdata raw =>
      simp only [pwrLoop] at h
      exact ih _ _ _ _ _ _ h
    | decl raw =>
      simp only [pwrLoop] at h
      exact ih _ _ _ _ _ _ h
    | pi raw =>
      simp only [pwrLoop] at h
      exact ih _ _ _ _ _ _ h
    | docType raw =>
      simp only [pwrLoop] at h
      exact ih _ _ _ _ _ _ h

/-- The preserved accumulator only grows. -/
theorem pwrLoop_mem_mono (tid : List Nat) :
    ∀ (evs : List XmlEvent) (tt0 : Option (List Nat))
      (p0 : List WorkbookRelationship) (m0 : Nat) (tt : Option (List Nat))
      (p : List WorkbookRelationship) (m : Nat),
      pwrLoop tid evs tt0 p0 m0 = .ok (tt, p, m) →
      ∀ x ∈ p0, x ∈ p := by
  intro evs
  induction evs with
  | nil =>
    intro tt0 p0 m0 tt p m h x hx
    simp only [pwrLoop] at h
    injection h with h
    simp only [Prod.mk.injEq] at h
    obtain ⟨_, h2, _⟩ := h
    subst h2
    exact hx
  | cons e rest ih =>
    intro tt0 p0 m0 tt p m h x hx
    cases e with
    | empty name attrs raw =>
      simp only [pwrLoop] at h
      by_cases hname : name = strCodes "Relationship"
      · rw [if_pos hname] at h
        cases hitem : parseRelItem m0 attrs with
        | error err => rw [hitem] at h; cases h
        | ok q =>
          obtain ⟨i, t, k, m2⟩ := q
          rw [hitem] at h
          dsimp only at h
          by_cases hws : (strCodes "/worksheet").isSuffixOf k = true
          · rw [if_pos hws] at h
            by_cases hid : i = tid
            · rw [if_pos hid] at h
              exact ih _ _ _ _ _ _ h x hx
            · rw [if_neg hid] at h
              exact ih _ _ _ _ _ _ h x hx
          · rw [if_neg hws] at h
            exact ih _ _ _ _ _ _ h x (List.mem_append_left _ hx)
      · rw [if_neg hname] at h
        exact ih _ _ _ _ _ _ h x hx
    | start name attrs raw =>
      simp only [pwrLoop] at h
      exact ih _ _ _ _ _ _ h x hx
    | endTag name raw =>
      simp only [pwrLoop] at h
      exact ih _ _ _ _ _ _ h x hx
    | text raw =>
      simp only [pwrLoop] at h
      exact ih _ _ _ _ _ _ h x hx
    | comment raw =>
      simp only [pwrLoop] at h
      exact ih _ _ _ _ _ _ h x hx
    | cdata raw =>
      simp only [pwrLoop] at h
      exact ih _ _ _ _ _ _ h x hx
    | decl raw =>
      simp only [pwrLoop] at h
      exact ih _ _ _ _ _ _ h x hx
    | pi raw =>
      simp only [pwrLoop] at h
      exact ih _ _ _ _ _ _ h x hx
    | docType raw =>
      simp only [pwrLoop] at h
      exact ih _ _ _ _ _ _ h x hx

/-- The id / target / type components of the attribute loop do not depend
on the incoming maximum. -/
theorem relAttrFold_comp (attrs : List (List Nat × List Nat)) :
    ∀ st1 st2 : RelAttrState, st1.id = st2.id → st1.target = st2.target →
      st1.kind = st2.kind →
      (attrs.foldl relAttrStep st1).id = (attrs.foldl relAttrStep st2).id
      ∧ (attrs.foldl relAttrStep st1).target = (attrs.foldl relAttrStep st2).target
      ∧ (attrs.foldl relAttrStep st1).kind = (attrs.foldl relAttrStep st2).kind := by
  induction attrs with
  | nil => intro st1 st2 h1 h2 h3; exact ⟨h1, h2, h3⟩
  | cons kv rest ih =>
    intro st1 st2 h1 h2 h3
    rw [List.foldl_cons, List.foldl_cons]
    have hstep : (relAttrStep st1 kv).id = (relAttrStep st2 kv).id
        ∧ (relAttrStep st1 kv).target = (relAttrStep st2 kv).target
        ∧ (relAttrStep st1 kv).kind = (relAttrStep st2 kv).kind := by
      unfold relAttrStep
      by_cases hk1 : kv.1 = strCodes "Id"
      · rw [if_pos hk1, if_pos hk1]
        exact ⟨rfl, h2, h3⟩
      · rw [if_neg hk1, if_neg hk1]
        by_cases hk2 : kv.1 = strCodes "Target"
        · rw [if_pos hk2, if_pos hk2]
          exact ⟨h1, rfl, h3⟩
        · rw [if_neg hk2, if_neg hk2]
          by_cases hk3 : kv.1 = strCodes "Type"
          · rw [if_pos hk3, if_pos hk3]
            exact ⟨h1, h2, rfl⟩
          · rw [if_neg hk3, if_neg hk3]
            exact ⟨h1, h2, h3⟩
    exact ih _ _ hstep.1 hstep.2.1 hstep.2.2

/-- A `Relationship` node that extracts successfully extracts the same
id / target / type whatever the incoming maximum. -/
theorem parseRelItem_stable (attrs : List (List Nat × List Nat))
    (m1 m2 : Nat) (i t k : List Nat) (mo : Nat)
    (h : parseRelItem m1 attrs = .ok (i, t, k, mo)) :
    ∃ mo2, parseRelItem m2 attrs = .ok (i, t, k, mo2) := by
  have hc := relAttrFold_comp attrs
    { id := none, target := none, kind := none, maxId := m1 }
    { id := none, target := none, kind := none, maxId := m2 } rfl rfl rfl
  simp only [parseRelItem, relAttrState] at h ⊢
  rw [← hc.1, ← hc.2.1, ← hc.2.2]
  cases hid : (List.foldl relAttrStep
      { id := none, target := none, kind := none, maxId := m1 } attrs).id with
  | none => rw [hid] at h; cases h
  | some i0 =>
    rw [hid] at h
    cases ht : (List.foldl relAttrStep
        { id := none, target := none, kind := none, maxId := m1 } attrs).target with
    | none => rw [ht] at h; cases h
    | some t0 =>
      rw [ht] at h
      cases hk : (List.foldl relAttrStep
          { id := none, target := none, kind := none, maxId := m1 } attrs).kind with
      | none => rw [hk] at h; cases h
      | some k0 =>
        rw [hk] at h
        injection h with h
        simp only [Prod.mk.injEq] at h
        obtain ⟨hi, ht2, hk2, _⟩ := h
        subst hi
        subst ht2
        subst hk2
        exact ⟨_, rfl⟩

/-- Every non-worksheet `Relationship` node in the event stream ends up in
the preserved list of a successful parse. -/
theorem pwrLoop_source_mem (tid : List Nat) :
    ∀ (evs : List XmlEvent) (tt0 : Option (List Nat))
      (p0 : List WorkbookRelationship) (m0 : Nat) (tt : Option (List Nat))
      (p : List WorkbookRelationship) (m : Nat)
      (attrs : List (List Nat × List Nat)) (raw i t k : List Nat) (mo : Nat),
      pwrLoop tid evs tt0 p0 m0 = .ok (tt, p, m) →
      XmlEvent.empty (strCodes "Relationship") attrs raw ∈ evs →
      parseRelItem 0 attrs = .ok (i, t, k, mo) →
      (strCodes "/worksheet").isSuffixOf k = false →
      (⟨i, t, k⟩ : WorkbookRelationship) ∈ p := by
  intro evs
  induction evs with
  | nil => intro tt0 p0 m0 tt p m attrs raw i t k mo _ hmem; cases hmem
  | cons e rest ih =>
    intro tt0 p0 m0 tt p m attrs raw i t k mo h hmem hitem hws
    rcases List.mem_cons.mp hmem with heq | hmem2
    · subst heq
      simp only [pwrLoop] at h
      rw [if_pos trivial] at h
      obtain ⟨mo2, hitem2⟩ := parseRelItem_stable attrs 0 m0 i t k mo hitem
      rw [hitem2] at h
      dsimp only at h
      rw [if_neg (by rw [hws]; exact Bool.false_ne_true)] at h
      exact pwrLoop_mem_mono tid rest _ _ _ _ _ _ h ⟨i, t, k⟩
        (List.mem_append_right _ (List.mem_singleton_self _))
    · cases e with
      | empty name2 attrs2 raw2 =>
        simp only [pwrLoop] at h
        by_cases hname : name2 = strCodes "Relationship"
        · rw [if_pos hname] at h
          cases hitem3 : parseRelItem m0 attrs2 with
          | error err => rw [hitem3] at h; cases h
          | ok q =>
            obtain ⟨i2, t2, k2, m2⟩ := q
            rw [hitem3] at h
            dsimp only at h
            by_cases hws2 : (strCodes "/worksheet").isSuffixOf k2 = true
            · rw [if_pos hws2] at h
              by_cases hid : i2 = tid
              · rw [if_pos hid] at h
                exact ih _ _ _ _ _ _ attrs raw i t k mo h hmem2 hitem hws
              · rw [if_neg hid] at h
                exact ih _ _ _ _ _ _ attrs raw i t k mo h hmem2 hitem hws
            · rw [if_neg hws2] at h
              exact ih _ _ _ _ _ _ attrs raw i t k mo h hmem2 hitem hws
        · rw [if_neg hname] at h
          exact ih _ _ _ _ _ _ attrs raw i t k mo h hmem2 hitem hws
      | start name2 attrs2 raw2 =>
        simp only [pwrLoop] at h
        exact ih _ _ _ _ _ _ attrs raw i t k mo h hmem2 hitem hws
      | endTag name2 raw2 =>
        simp only [pwrLoop] at h
        exact ih _ _ _ _ _ _ attrs raw i t k mo h hmem2 hitem hws
      | text raw2 =>
        simp only [pwrLoop] at h
        exact ih _ _ _ _ _ _ attrs raw i t k mo h hmem2 hitem hws
      | comment raw2 =>
        simp only [pwrLoop] at h
        exact ih _ _ _ _ _ _ attrs raw i t k mo h hmem2 hitem hws
      | cdata raw2 =>
        simp only [pwrLoop] at h
        exact ih _ _ _ _ _ _ attrs raw i t k mo h hmem2 hitem hws
      | decl raw2 =>
        simp only [pwrLoop] at h
        exact ih _ _ _ _ _ _ attrs raw i t k mo h hmem2 hitem hws
      | pi raw2 =>
        simp only [pwrLoop] at h
        exact ih _ _ _ _ _ _ attrs raw i t k mo h hmem2 hitem hws
      | docType raw2 =>
        simp only [pwrLoop] at h
        exact ih _ _ _ _ _ _ attrs raw i t k mo h hmem2 hitem hws

theorem foldl_append_flatten {α : Type} (f : α → List Nat) (l : List α) :
    ∀ a : List Nat, l.foldl (fun acc x => acc ++ f x) a = a ++ (l.map f).flatten := by
  induction l with
  | nil => intro a; simp
  | cons x rest ih =>
    intro a
    rw [List.foldl_cons, ih]
    simp

theorem replaceChar_id (l : List Nat) (c : Nat) (sub : List Nat)
    (h : ∀ x ∈ l, x ≠ c) : replaceChar l c sub = l := by
  induction l with
  | nil => rfl
  | cons x rest ih =>
    simp only [replaceChar]
    rw [if_neg (h x (List.mem_cons_self x rest))]
    simp [ih (fun y hy => h y (List.mem_cons_of_mem x hy))]

theorem xml_escape_id (l : List Nat)
    (h : ∀ c ∈ l, c ≠ 38 ∧ c ≠ 60 ∧ c ≠ 62 ∧ c ≠ 34 ∧ c ≠ 39) :
    xml_escape l = l := by
  unfold xml_escape
  rw [replaceChar_id l 38 _ (fun x hx => (h x hx).1),
      replaceChar_id l 60 _ (fun x hx => (h x hx).2.1),
      replaceChar_id l 62 _ (fun x hx => (h x hx).2.2.1),
      replaceChar_id l 34 _ (fun x hx => (h x hx).2.2.2.1),
      replaceChar_id l 39 _ (fun x hx => (h x hx).2.2.2.2)]

theorem ridSuffixVal_rid (m : Nat) (hm : m < U32) :
    ridSuffixVal (strCodes "rId" ++ natDecimal m) = some m := by
  unfold ridSuffixVal
  have htake : (strCodes "rId" ++ natDecimal m).take 3 = strCodes "rId" := rfl
  have hdrop : (strCodes "rId" ++ natDecimal m).drop 3 = natDecimal m := rfl
  rw [htake, hdrop, if_pos rfl]
  exact parseU32_natDecimal m hm

-- ---------------------------------------------------------------------------
-- C9
-- ---------------------------------------------------------------------------

/-- C9 (amended): on a successful parse, every preserved relationship's
numeric `rId` suffix is bounded by the returned maximum; every
non-worksheet `Relationship` node of the source table ends up in the
preserved list; the output relationship table renders the preserved
relationships in order, before the generated worksheet relationships, with
each field re-escaped — which is the identity (verbatim) exactly on fields
containing none of `& < > " '`; and as long as `max + n < 2^32`, the `n`
generated relationship ids `rId((max+i+1) mod 2^32)` collide with no
pre-existing preserved id. -/
theorem c9_preserved_relationships :
    (∀ (evs : List XmlEvent) (tid target : List Nat)
       (preserved : List WorkbookRelationship) (maxId : Nat),
       parse_workbook_relationships (.ok evs) tid = .ok (target, preserved, maxId) →
         (∀ rel ∈ preserved, ∀ v, ridSuffixVal rel.id = some v → v ≤ maxId)
         ∧ (∀ (attrs : List (List Nat × List Nat)) (raw i t k : List Nat) (mo : Nat),
             XmlEvent.empty (strCodes "Relationship") attrs raw ∈ evs →
             parseRelItem 0 attrs = .ok (i, t, k, mo) →
             (strCodes "/worksheet").isSuffixOf k = false →
             (⟨i, t, k⟩ : WorkbookRelationship) ∈ preserved))
    ∧ (∀ (preserved : List WorkbookRelationship) (sheets : List WorksheetExport),
         build_workbook_rels preserved sheets =
           relsHeader ++ (preserved.map renderRelationship).flatten ++
           (sheets.map renderSheetRelationship).flatten ++ relsFooter)
    ∧ (∀ l : List Nat, (∀ c ∈ l, c ≠ 38 ∧ c ≠ 60 ∧ c ≠ 62 ∧ c ≠ 34 ∧ c ≠ 39) →
         xml_escape l = l)
    ∧ (∀ (preserved : List WorkbookRelationship) (maxId n j : Nat),
         (∀ rel ∈ preserved, ∀ v, ridSuffixVal rel.id = some v → v ≤ maxId) →
         maxId + n < U32 → j < n →
         ∀ rel ∈ preserved,
           rel.id ≠ strCodes "rId" ++ natDecimal ((maxId + j + 1) % U32)) := by
  refine ⟨?_, ?_, xml_escape_id, ?_⟩
  · intro evs tid target preserved maxId h
    unfold parse_workbook_relationships at h
    dsimp only at h
    cases hp : pwrLoop tid evs none [] 0 with
    | error e => rw [hp] at h; cases h
    | ok q =>
      obtain ⟨tt, p, m⟩ := q
      rw [hp] at h
      cases tt with
      | none => dsimp only at h; cases h
      | some tg =>
        dsimp only at h
        injection h with h
        simp only [Prod.mk.injEq] at h
        obtain ⟨_, hp2, hm2⟩ := h
        subst hp2
        subst hm2
        constructor
        · intro rel hrel v hv
          rcases (pwrLoop_bound tid evs none [] 0 _ _ _ hp).2 rel hrel with hin | hb
          · cases hin
          · exact hb v hv
        · intro attrs raw i t k mo hmem hitem hws
          exact pwrLoop_source_mem tid evs none [] 0 _ _ _ attrs raw i t k mo
            hp hmem hitem hws
  · intro preserved sheets
    unfold build_workbook_rels
    rw [foldl_append_flatten renderRelationship preserved,
        foldl_append_flatten renderSheetRelationship sheets]
    simp
  · intro preserved maxId n j hbound hlt hj rel hrel hcon
    have hm : maxId + j + 1 < U32 := by omega
    have hmod : (maxId + j + 1) % U32 = maxId + j + 1 := Nat.mod_eq_of_lt hm
    rw [hmod] at hcon
    have hsfx : ridSuffixVal rel.id = some (maxId + j + 1) := by
      rw [hcon]
      exact ridSuffixVal_rid (maxId + j + 1) hm
    have := hbound rel hrel (maxId + j + 1) hsfx
    omega

/-- The source relationship table of the C9 witness: the template
worksheet plus one styles relationship. -/
def c9WitEvents : List XmlEvent :=
  [XmlEvent.empty (strCodes "Relationship")
     [(strCodes "Id", strCodes "rId1"),
      (strCodes "Type",
       strCodes "http://schemas.openxmlformats.org/officeDocument/2006/relationships/worksheet"),
      (strCodes "Target", strCodes "worksheets/sheet1.xml")]
     (strCodes "ignored"),
   XmlEvent.empty (strCodes "Relationship")
     [(strCodes "Id", strCodes "rId2"),
      (strCodes "Type",
       strCodes "http://schemas.openxmlformats.org/officeDocument/2006/relationships/styles"),
      (strCodes "Target", strCodes "styles.xml")]
     (strCodes "ignored")]

/-- The preserved list the C9 witness run produces. -/
def c9WitPreserved : List WorkbookRelationship :=
  [⟨strCodes "rId2", strCodes "styles.xml",
    strCodes "http://schemas.openxmlformats.org/officeDocument/2006/relationships/styles"⟩]

/-- C9 witness: the amended theorem applied to a concrete two-relationship
table — the styles relationship is preserved with suffix bound 2, appears
in the rendered output before the sheet relationships, its fields are
escape-free hence verbatim, and it collides with none of 3 fresh ids. -/
theorem c9_witness :
    ((∀ rel ∈ c9WitPreserved, ∀ v, ridSuffixVal rel.id = some v → v ≤ 2)
      ∧ (⟨strCodes "rId2", strCodes "styles.xml",
          strCodes "http://schemas.openxmlformats.org/officeDocument/2006/relationships/styles"⟩ :
            WorkbookRelationship) ∈ c9WitPreserved)
    ∧ build_workbook_rels c9WitPreserved [] =
        relsHeader ++ (c9WitPreserved.map renderRelationship).flatten ++
        (([] : List WorksheetExport).map renderSheetRelationship).flatten ++ relsFooter
    ∧ xml_escape (strCodes "styles.xml") = strCodes "styles.xml"
    ∧ (∀ rel ∈ c9WitPreserved,
        rel.id ≠ strCodes "rId" ++ natDecimal ((2 + 0 + 1) % U32)) := by
  have hparse : parse_workbook_relationships (.ok c9WitEvents) (strCodes "rId1") =
      .ok (strCodes "worksheets/sheet1.xml", c9WitPreserved, 2) := by decide
  have hmain := c9_preserved_relationships
  have h1 := hmain.1 c9WitEvents (strCodes "rId1") (strCodes "worksheets/sheet1.xml")
    c9WitPreserved 2 hparse
  refine ⟨⟨h1.1, ?_⟩, hmain.2.1 c9WitPreserved [], hmain.2.2.1 _ (by decide), ?_⟩
  · exact h1.2
      [(strCodes "Id", strCodes "rId2"),
       (strCodes "Type",
        strCodes "http://schemas.openxmlformats.org/officeDocument/2006/relationships/styles"),
       (strCodes "Target", strCodes "styles.xml")]
      (strCodes "ignored") (strCodes "rId2") (strCodes "styles.xml")
      (strCodes "http://schemas.openxmlformats.org/officeDocument/2006/relationships/styles")
      2 (by decide) (by decide) (by decide)
  · exact hmain.2.2.2 c9WitPreserved 2 3 0 h1.1 (by decide) (by decide)

/-- The source relationship table of the first C9 counterexample: the
preserved relationship's target holds an XML entity. -/
def c9CexEvents1 : List XmlEvent :=
  [XmlEvent.empty (strCodes "Relationship")
     [(strCodes "Id", strCodes "rId1"),
      (strCodes "Type", strCodes "x/worksheet"),
      (strCodes "Target", strCodes "sheet1.xml")]
     (strCodes "ignored"),
   XmlEvent.empty (strCodes "Relationship")
     [(strCodes "Id", strCodes "rId2"),
      (strCodes "Type", strCodes "http://t"),
      (strCodes "Target", strCodes "a&amp;b")]
     (strCodes "ignored")]

/-- The source relationship table of the second C9 counterexample: a
zero-padded huge `rId04294967295` pushes the recorded maximum to
`2^32 - 1` while `rId0` is also present. -/
def c9CexEvents2 : List XmlEvent :=
  [XmlEvent.empty (strCodes "Relationship")
     [(strCodes "Id", strCodes "rId04294967295"),
      (strCodes "Type", strCodes "x/worksheet"),
      (strCodes "Target", strCodes "sheet1.xml")]
     (strCodes "ignored"),
   XmlEvent.empty (strCodes "Relationship")
     [(strCodes "Id", strCodes "rId0"),
      (strCodes "Type", strCodes "http://t"),
      (strCodes "Target", strCodes "t")]
     (strCodes "ignored")]

set_option maxRecDepth 4096 in
/-- C9 counterexample: (1) a preserved relationship whose target contains
`&` is re-escaped on output — `a&amp;b` becomes `a&amp;amp;b` in the
output table, so it does not appear unmodified; (2) with a pre-existing
id `rId04294967295` the recorded maximum is `2^32 - 1`, so the first
freshly allocated id `rId((max+1) mod 2^32)` is `rId0`, which collides
with the pre-existing preserved id `rId0`. -/
theorem c9_counterexample :
    parse_workbook_relationships (.ok c9CexEvents1) (strCodes "rId1") =
      .ok (strCodes "sheet1.xml",
           [⟨strCodes "rId2", strCodes "a&amp;b", strCodes "http://t"⟩], 2)
    ∧ build_workbook_rels
        [⟨strCodes "rId2", strCodes "a&amp;b", strCodes "http://t"⟩] [] =
        relsHeader ++
        strCodes "<Relationship Id=\"rId2\" Type=\"http://t\" Target=\"a&amp;amp;b\"/>" ++
        relsFooter
    ∧ strCodes "a&amp;amp;b" ≠ strCodes "a&amp;b"
    ∧ parse_workbook_relationships (.ok c9CexEvents2) (strCodes "rId04294967295") =
        .ok (strCodes "sheet1.xml",
             [⟨strCodes "rId0", strCodes "t", strCodes "http://t"⟩], 4294967295)
    ∧ strCodes "rId" ++ natDecimal ((4294967295 + 0 + 1) % U32) = strCodes "rId0" := by
  refine ⟨by decide, by decide, by decide, by decide, by decide⟩

end BulkSheet
